import Mathlib

/-!
# Rate limiter: decision engine, store contract and header helpers

A shallow embedding of `internal/limiter/limiter.go` (the `RateLimiter` methods
`CheckLimit`, `ExtractTokenFromHeader`, `GetClientIP`), of the in-memory store
`MockStorage` from `internal/limiter/limiter_test.go`, of the handler of
`internal/middleware/rate_limiter.go` and of `RedisStorage` from
`internal/storage/redis.go` on a model of a Redis server with time.

Conventions of the embedding:

* Go `int64` values are integers; every `int64` arithmetic operation of the source is
  followed by `wrap64`, the two's-complement wrap-around of Go.
* Go `int` is the 64-bit `int` of the usual targets: a configuration field is an integer
  together with the proof that it is representable (`GoInt`).
* A store is a record of state-passing operations over a state type `σ`; an operation
  returns its outcome (a value or a store error of type `ε`) and the next state.
* `time.Now()` is a parameter `now`; an instant is a number of nanoseconds on an
  unbounded time line and `Time.Add` is addition on that line.
* Go strings are `String`s.
-/

namespace RateLimiter

/-! ## Machine integers, durations, instants -/

/-- Two's-complement wrap-around of an integer into the `int64` range. -/
def wrap64 (x : Int) : Int :=
  (x + 9223372036854775808) % 18446744073709551616 - 9223372036854775808

/-- A Go `int` (64 bits): an integer that is representable. -/
def GoInt : Type :=
  { x : Int // -9223372036854775808 ≤ x ∧ x ≤ 9223372036854775807 }

/-- A `time.Duration`: an `int64` count of nanoseconds. -/
abbrev Duration : Type := Int

/-- An instant, in nanoseconds on an unbounded time line. -/
abbrev Time : Type := Int

/-- The constant `time.Second`, in nanoseconds. -/
def Second : Duration := 1000000000

/-- The method `Time.Add`. -/
def Time.Add (t : Time) (d : Duration) : Time := t + d

/-! ## Data model of `limiter.go` -/

/-- The struct `Config`. -/
structure Config where
  IPRequestsPerSecond : GoInt
  IPBlockDurationSeconds : GoInt
  TokenRequestsPerSecond : GoInt
  TokenBlockDurationSeconds : GoInt

/-- The struct `LimitResult`. -/
structure LimitResult where
  Allowed : Bool
  Limit : Int
  Remaining : Int
  ResetTime : Time
  deriving DecidableEq, Repr

/-- The interface `StorageStrategy`, as state-passing operations on a store state `σ`
with store errors `ε`. `Close` takes no part in any decision and is left out. -/
structure StorageStrategy (σ : Type) (ε : Type) where
  Increment : σ → String → Duration → Except ε Int × σ
  Get : σ → String → Except ε Int × σ
  Set : σ → String → Int → Duration → Except ε Unit × σ
  Exists : σ → String → Except ε Bool × σ
  Delete : σ → String → Except ε Unit × σ

/-- The errors `CheckLimit` builds with `fmt.Errorf`: the message of an invalid limit
type, or a context string wrapping (`%w`) a store error. -/
inductive CheckError (ε : Type) where
  | invalidLimitType (msg : String)
  | wrapped (context : String) (cause : ε)
  deriving DecidableEq, Repr

/-- The counter key `fmt.Sprintf("rate_limit:%s:%s", limitType, identifier)`. -/
def counterKey (limitType identifier : String) : String :=
  "rate_limit:" ++ limitType ++ ":" ++ identifier

/-- The block key `fmt.Sprintf("block:%s:%s", limitType, identifier)`. -/
def blockKey (limitType identifier : String) : String :=
  "block:" ++ limitType ++ ":" ++ identifier

/-- The `switch limitType` of `CheckLimit`: the pair
`(requestsPerSecond, blockDurationSeconds)` of the class, `none` in the default case. -/
def limitParams (config : Config) (limitType : String) : Option (Int × Int) :=
  if limitType = "ip" then
    some (config.IPRequestsPerSecond.val, config.IPBlockDurationSeconds.val)
  else if limitType = "token" then
    some (config.TokenRequestsPerSecond.val, config.TokenBlockDurationSeconds.val)
  else none

/-- The block duration `time.Duration(blockDurationSeconds) * time.Second`, an `int64`
product. -/
def blockDurationOf (blockDurationSeconds : Int) : Duration :=
  wrap64 (blockDurationSeconds * Second)

/-- The method `RateLimiter.CheckLimit`, on the store `storage` in state `s`, at time
`now`. It returns the result or the error, and the state of the store afterwards. -/
def CheckLimit {σ ε : Type} (storage : StorageStrategy σ ε) (config : Config) (now : Time)
    (s : σ) (identifier limitType : String) : Except (CheckError ε) LimitResult × σ :=
  match limitParams config limitType with
  | none => (.error (.invalidLimitType ("invalid limit type: " ++ limitType)), s)
  | some (requestsPerSecond, blockDurationSeconds) =>
    let key := counterKey limitType identifier
    let windowDuration := Second
    let blockDuration := blockDurationOf blockDurationSeconds
    let bKey := blockKey limitType identifier
    match storage.Exists s bKey with
    | (.error err, s1) => (.error (.wrapped "error checking block status" err), s1)
    | (.ok true, s1) =>
      (.ok { Allowed := false, Limit := requestsPerSecond, Remaining := 0,
             ResetTime := Time.Add now blockDuration }, s1)
    | (.ok false, s1) =>
      match storage.Increment s1 key windowDuration with
      | (.error err, s2) => (.error (.wrapped "error incrementing counter" err), s2)
      | (.ok currentCount, s2) =>
        if currentCount > requestsPerSecond then
          match storage.Set s2 bKey 1 blockDuration with
          | (.error err, s3) => (.error (.wrapped "error setting block" err), s3)
          | (.ok (), s3) =>
            (.ok { Allowed := false, Limit := requestsPerSecond, Remaining := 0,
                   ResetTime := Time.Add now blockDuration }, s3)
        else
          (.ok { Allowed := true, Limit := requestsPerSecond,
                 Remaining := wrap64 (requestsPerSecond - currentCount),
                 ResetTime := Time.Add now windowDuration }, s2)

/-! ## Observing the store operations of a call -/

/-- One call of a store operation, with its arguments. -/
inductive StoreCall where
  | Increment (key : String) (expiration : Duration)
  | Get (key : String)
  | Set (key : String) (value : Int) (expiration : Duration)
  | Exists (key : String)
  | Delete (key : String)
  deriving DecidableEq, Repr

/-- The store `storage` with a journal: every operation is forwarded to `storage` and
appended to the list of calls made so far. -/
def journaled {σ ε : Type} (storage : StorageStrategy σ ε) :
    StorageStrategy (σ × List StoreCall) ε where
  Increment := fun s key expiration =>
    ((storage.Increment s.1 key expiration).1,
      ((storage.Increment s.1 key expiration).2, s.2 ++ [StoreCall.Increment key expiration]))
  Get := fun s key =>
    ((storage.Get s.1 key).1, ((storage.Get s.1 key).2, s.2 ++ [StoreCall.Get key]))
  Set := fun s key value expiration =>
    ((storage.Set s.1 key value expiration).1,
      ((storage.Set s.1 key value expiration).2, s.2 ++ [StoreCall.Set key value expiration]))
  Exists := fun s key =>
    ((storage.Exists s.1 key).1, ((storage.Exists s.1 key).2, s.2 ++ [StoreCall.Exists key]))
  Delete := fun s key =>
    ((storage.Delete s.1 key).1, ((storage.Delete s.1 key).2, s.2 ++ [StoreCall.Delete key]))

/-! ## The in-memory store of the tests -/

/-- The field `data map[string]int64` of `MockStorage`. -/
abbrev MockData : Type := String → Option Int

/-- The map with `key` bound to `value`. -/
def MockData.insert (m : MockData) (key : String) (value : Int) : MockData :=
  fun k => if k = key then some value else m k

/-- The map without `key`. -/
def MockData.erase (m : MockData) (key : String) : MockData :=
  fun k => if k = key then none else m k

/-- The read `m.data[key]`: the zero value when the key is absent. -/
def MockData.read (m : MockData) (key : String) : Int :=
  (m key).getD 0

/-- The type `MockStorage`: a map without expiry whose operations never fail.
`Increment` is `m.data[key]++` on an `int64`. -/
def MockStorage (ε : Type) : StorageStrategy MockData ε where
  Increment := fun m key _ =>
    (.ok (wrap64 (m.read key + 1)), m.insert key (wrap64 (m.read key + 1)))
  Get := fun m key => (.ok (m.read key), m)
  Set := fun m key value _ => (.ok (), m.insert key value)
  Exists := fun m key => (.ok (m key).isSome, m)
  Delete := fun m key => (.ok (), m.erase key)

/-- The store `NewMockStorage()`: an empty map. -/
def NewMockStorage : MockData := fun _ => none

/-! ## Consecutive calls -/

/-- The state of the store after `k` consecutive calls `CheckLimit(identifier, limitType)`
starting from the state `s`; the `j`-th call is made at time `clock j`. -/
def stateAfter {σ ε : Type} (storage : StorageStrategy σ ε) (config : Config)
    (clock : Nat → Time) (s : σ) (identifier limitType : String) : Nat → σ
  | 0 => s
  | k + 1 =>
    (CheckLimit storage config (clock (k + 1))
      (stateAfter storage config clock s identifier limitType k) identifier limitType).2

/-- The `k`-th (counting from 1) of the consecutive calls `CheckLimit(identifier, limitType)`
starting from the state `s`: what it returns and the state it leaves. -/
def callNo {σ ε : Type} (storage : StorageStrategy σ ε) (config : Config)
    (clock : Nat → Time) (s : σ) (identifier limitType : String) (k : Nat) :
    Except (CheckError ε) LimitResult × σ :=
  CheckLimit storage config (clock k)
    (stateAfter storage config clock s identifier limitType (k - 1)) identifier limitType

/-! ## Configurations of the tests -/

deriving instance DecidableEq for Except

/-- The configuration of `TestRateLimiter_CheckLimit`: 5 requests and a 60 s block per IP,
10 requests and a 120 s block per token. -/
def testConfig : Config :=
  { IPRequestsPerSecond := ⟨5, by decide⟩
    IPBlockDurationSeconds := ⟨60, by decide⟩
    TokenRequestsPerSecond := ⟨10, by decide⟩
    TokenBlockDurationSeconds := ⟨120, by decide⟩ }

/-- A configuration whose IP block duration, 10^10 seconds, is a Go `int` but exceeds the
largest `time.Duration` when counted in nanoseconds; one request per window. -/
def longBlockConfig : Config :=
  { IPRequestsPerSecond := ⟨1, by decide⟩
    IPBlockDurationSeconds := ⟨10000000000, by decide⟩
    TokenRequestsPerSecond := ⟨1, by decide⟩
    TokenBlockDurationSeconds := ⟨10000000000, by decide⟩ }

/-- A configuration whose IP limit is the largest `int64`. -/
def maxLimitConfig : Config :=
  { IPRequestsPerSecond := ⟨9223372036854775807, by decide⟩
    IPBlockDurationSeconds := ⟨60, by decide⟩
    TokenRequestsPerSecond := ⟨10, by decide⟩
    TokenBlockDurationSeconds := ⟨120, by decide⟩ }

/-! ## Interleaved calls -/

/-- One call `CheckLimit(identifier, limitType)`, made at time `now`. -/
structure Call where
  identifier : String
  limitType : String
  now : Time

/-- Whether the call is for the given identifier and limit type. -/
def Call.isFor (call : Call) (identifier limitType : String) : Bool :=
  decide (call.identifier = identifier ∧ call.limitType = limitType)

/-- The calls of the list made one after the other from the state `s`: what each call
returns, in order, and the final state. -/
def runCalls {σ ε : Type} (storage : StorageStrategy σ ε) (config : Config) :
    σ → List Call → List (Except (CheckError ε) LimitResult) × σ
  | s, [] => ([], s)
  | s, call :: rest =>
    ((CheckLimit storage config call.now s call.identifier call.limitType).1 ::
        (runCalls storage config
          (CheckLimit storage config call.now s call.identifier call.limitType).2 rest).1,
      (runCalls storage config
        (CheckLimit storage config call.now s call.identifier call.limitType).2 rest).2)

/-- Among the outcomes of the calls, in order, those of the calls for the given identifier
and limit type. -/
def resultsFor {α : Type} (identifier limitType : String) (calls : List Call)
    (results : List α) : List α :=
  ((calls.zip results).filter (fun p => p.1.isFor identifier limitType)).map Prod.snd

/-! ## Requests and the header helpers of `limiter.go` -/

/-- The part of an `http.Request` that the limiter reads: `HeaderGet name` is what
`r.Header.Get(name)` returns (the empty string when the header is absent), `RemoteAddr` is
the field of that name. -/
structure Request where
  HeaderGet : String → String
  RemoteAddr : String

/-- The function `unicode.IsSpace` of the Go library: in Latin-1 the characters tab, line
feed, vertical tab, form feed, carriage return, space, U+0085 and U+00A0; beyond Latin-1
the characters of the Unicode property White_Space. -/
def IsSpace (r : Char) : Bool :=
  if r.toNat ≤ 255 then
    decide (r.toNat = 9 ∨ r.toNat = 10 ∨ r.toNat = 11 ∨ r.toNat = 12 ∨ r.toNat = 13
      ∨ r.toNat = 32 ∨ r.toNat = 133 ∨ r.toNat = 160)
  else
    decide (r.toNat = 5760 ∨ (8192 ≤ r.toNat ∧ r.toNat ≤ 8202) ∨ r.toNat = 8232
      ∨ r.toNat = 8233 ∨ r.toNat = 8239 ∨ r.toNat = 8287 ∨ r.toNat = 12288)

/-- The function `strings.TrimSpace` of the Go library: the string without its leading
and trailing white space, as `unicode.IsSpace` defines it. -/
def TrimSpace (s : String) : String :=
  ⟨((s.data.dropWhile IsSpace).reverse.dropWhile IsSpace).reverse⟩

/-- The method `RateLimiter.ExtractTokenFromHeader`. -/
def ExtractTokenFromHeader (r : Request) : String :=
  if r.HeaderGet "API_KEY" ≠ "" then TrimSpace (r.HeaderGet "API_KEY") else ""

/-- The pieces of a list of characters between the occurrences of the separator. -/
def splitChars (sep : Char) : List Char → List (List Char)
  | [] => [[]]
  | ch :: rest =>
    if ch = sep then [] :: splitChars sep rest
    else
      match splitChars sep rest with
      | [] => [[ch]]
      | piece :: pieces => (ch :: piece) :: pieces

/-- The function `strings.Split` of the Go library, for a separator of one character:
the substrings of `s` between the occurrences of the separator. -/
def Split (s : String) (sep : Char) : List String :=
  (splitChars sep s.data).map String.mk

/-- The method `RateLimiter.GetClientIP`. The index expression `[0]` is the head of the
list, which `Split` never returns empty. -/
def GetClientIP (r : Request) : String :=
  if r.HeaderGet "X-Forwarded-For" ≠ "" then
    (Split (r.HeaderGet "X-Forwarded-For") ',').headD ""
  else if r.HeaderGet "X-Real-IP" ≠ "" then r.HeaderGet "X-Real-IP"
  else if r.HeaderGet "X-Client-IP" ≠ "" then r.HeaderGet "X-Client-IP"
  else r.RemoteAddr

/-- The request of a test: the given headers, looked up by name, and the remote address. -/
def requestOf (headers : List (String × String)) (remoteAddr : String) : Request :=
  { HeaderGet := fun name => ((headers.find? (fun h => h.1 == name)).map Prod.snd).getD ""
    RemoteAddr := remoteAddr }

/-! ## Errors as messages, and stores that fail -/

/-- The method `Error()` of an error built by `CheckLimit`: the message itself, or, for
`fmt.Errorf(context + ": %w", err)`, the context followed by the message of the wrapped
store error (`describe` is the `Error()` of store errors). -/
def CheckError.Error {ε : Type} (describe : ε → String) : CheckError ε → String
  | .invalidLimitType msg => msg
  | .wrapped context cause => context ++ ": " ++ describe cause

/-- The method `Unwrap()` of an error built by `CheckLimit`: the store error a `%w` verb
wrapped, if any. -/
def CheckError.Unwrap {ε : Type} : CheckError ε → Option ε
  | .invalidLimitType _ => none
  | .wrapped _ cause => some cause

/-- The store `storage` with faults: a call for which `fault` names an error fails with
that error and leaves the state as it is; every other call is forwarded. -/
def withFaults {σ ε : Type} (storage : StorageStrategy σ ε) (fault : StoreCall → Option ε) :
    StorageStrategy σ ε where
  Increment := fun s key expiration =>
    match fault (StoreCall.Increment key expiration) with
    | some err => (.error err, s)
    | none => storage.Increment s key expiration
  Get := fun s key =>
    match fault (StoreCall.Get key) with
    | some err => (.error err, s)
    | none => storage.Get s key
  Set := fun s key value expiration =>
    match fault (StoreCall.Set key value expiration) with
    | some err => (.error err, s)
    | none => storage.Set s key value expiration
  Exists := fun s key =>
    match fault (StoreCall.Exists key) with
    | some err => (.error err, s)
    | none => storage.Exists s key
  Delete := fun s key =>
    match fault (StoreCall.Delete key) with
    | some err => (.error err, s)
    | none => storage.Delete s key

/-- The fault of a store that cannot be reached: every call fails. -/
def unreachableStore : StoreCall → Option String :=
  fun _ => some "connection refused"

/-- The fault of a store on which only writes with `Set` fail. -/
def readOnlyStore : StoreCall → Option String
  | .Set _ _ _ => some "READONLY"
  | _ => none

/-- The store `storage` with lost replies: a call for which `fault` names an error is
carried out by `storage`, but its reply is lost and the call fails with that error (a
write that times out after the server has applied it). -/
def withLostReplies {σ ε : Type} (storage : StorageStrategy σ ε)
    (fault : StoreCall → Option ε) : StorageStrategy σ ε where
  Increment := fun s key expiration =>
    match fault (StoreCall.Increment key expiration) with
    | some err => (.error err, (storage.Increment s key expiration).2)
    | none => storage.Increment s key expiration
  Get := fun s key =>
    match fault (StoreCall.Get key) with
    | some err => (.error err, (storage.Get s key).2)
    | none => storage.Get s key
  Set := fun s key value expiration =>
    match fault (StoreCall.Set key value expiration) with
    | some err => (.error err, (storage.Set s key value expiration).2)
    | none => storage.Set s key value expiration
  Exists := fun s key =>
    match fault (StoreCall.Exists key) with
    | some err => (.error err, (storage.Exists s key).2)
    | none => storage.Exists s key
  Delete := fun s key =>
    match fault (StoreCall.Delete key) with
    | some err => (.error err, (storage.Delete s key).2)
    | none => storage.Delete s key

/-- The fault of a store on which the reply to every `Set` times out. -/
def setTimesOut : StoreCall → Option String
  | .Set _ _ _ => some "i/o timeout"
  | _ => none

/-! ## The middleware of `middleware/rate_limiter.go` -/

/-- Wrap-around of an integer into the `int32` range: the conversion `rune(x)` of an
`int64`. -/
def wrap32 (x : Int) : Int :=
  (x + 2147483648) % 4294967296 - 2147483648

/-- The conversion `string(rune(x))` of an `int64` `x`: the string holding the one
character whose code point is `rune(x)`, or U+FFFD when that is not a valid code point. -/
def runeToString (x : Int) : String :=
  if (0 ≤ wrap32 x ∧ wrap32 x < 55296) ∨ (57343 < wrap32 x ∧ wrap32 x ≤ 1114111) then
    String.singleton (Char.ofNat (wrap32 x).toNat)
  else String.singleton (Char.ofNat 65533)

/-- The base-10 representation of an integer, as `strconv.FormatInt(x, 10)` writes it. -/
def formatInt (x : Int) : String :=
  if x < 0 then "-" ++ Nat.repr x.natAbs else Nat.repr x.natAbs

/-- The part of a `gin.Context` the middleware reads and writes: the request, the
response headers set so far, the status and the JSON object written by `c.JSON`, whether
`c.Abort()` was called and whether `c.Next()` was called. -/
structure Context where
  Request : Request
  Headers : List (String × String)
  Status : Option Nat
  Body : List (String × String)
  Aborted : Bool
  Continued : Bool

/-- The method `c.Header(key, value)` of gin: an empty value deletes the response header,
any other value replaces it. Header names are kept as the source writes them. -/
def Context.Header (c : Context) (key value : String) : Context :=
  if value = "" then { c with Headers := c.Headers.filter (fun h => h.1 != key) }
  else { c with Headers := c.Headers.filter (fun h => h.1 != key) ++ [(key, value)] }

/-- The method `c.JSON(code, obj)` of gin, for an object of string fields. -/
def Context.JSON (c : Context) (code : Nat) (obj : List (String × String)) : Context :=
  { c with Status := some code, Body := obj }

/-- The method `c.Abort()` of gin. -/
def Context.Abort (c : Context) : Context :=
  { c with Aborted := true }

/-- The method `c.Next()` of gin, as far as the middleware is concerned: the rest of the
chain is run. -/
def Context.Next (c : Context) : Context :=
  { c with Continued := true }

/-- The context gin hands to the first handler for a request. -/
def Context.new (request : RateLimiter.Request) : Context :=
  { Request := request, Headers := [], Status := none, Body := [], Aborted := false,
    Continued := false }

/-- The message of the 429 response. -/
def tooManyRequestsMessage : String :=
  "you have reached the maximum number of requests or actions allowed within a certain time frame"

/-- The handler returned by `RateLimiterMiddleware(rateLimiter)`. The rate limiter is
given by its method `CheckLimit`, a state-passing function `checkLimit` over the state `τ`
of whatever it uses; `format` is `Time.Format(time.RFC3339)`. The handler returns the
context it leaves and the state after it. -/
def RateLimiterMiddleware {τ ε : Type}
    (checkLimit : τ → String → String → Except ε LimitResult × τ) (format : Time → String)
    (t : τ) (c : Context) : Context × τ :=
  let token := ExtractTokenFromHeader c.Request
  if token ≠ "" then
    match checkLimit t token "token" with
    | (.error _, t1) => (((c.JSON 500 [("error", "Internal server error")]).Abort), t1)
    | (.ok result, t1) =>
      if !result.Allowed then
        ((((((c.Header "X-RateLimit-Limit" (runeToString result.Limit)).Header
          "X-RateLimit-Remaining" (runeToString result.Remaining)).Header
          "X-RateLimit-Reset" (format result.ResetTime)).JSON 429
          [("error", tooManyRequestsMessage)]).Abort), t1)
      else
        (((((c.Header "X-RateLimit-Limit" (runeToString result.Limit)).Header
          "X-RateLimit-Remaining" (runeToString result.Remaining)).Header
          "X-RateLimit-Reset" (format result.ResetTime)).Next), t1)
  else
    let clientIP := GetClientIP c.Request
    match checkLimit t clientIP "ip" with
    | (.error _, t1) => (((c.JSON 500 [("error", "Internal server error")]).Abort), t1)
    | (.ok result, t1) =>
      if !result.Allowed then
        ((((((c.Header "X-RateLimit-Limit" (runeToString result.Limit)).Header
          "X-RateLimit-Remaining" (runeToString result.Remaining)).Header
          "X-RateLimit-Reset" (format result.ResetTime)).JSON 429
          [("error", tooManyRequestsMessage)]).Abort), t1)
      else
        (((((c.Header "X-RateLimit-Limit" (runeToString result.Limit)).Header
          "X-RateLimit-Remaining" (runeToString result.Remaining)).Header
          "X-RateLimit-Reset" (format result.ResetTime)).Next), t1)

/-- The method `checkLimit` with a record of its calls: every call is forwarded and its
arguments `(identifier, limitType)` are appended to the list of calls made so far. -/
def recording {τ ε : Type} (checkLimit : τ → String → String → Except ε LimitResult × τ) :
    τ × List (String × String) → String → String →
      Except ε LimitResult × (τ × List (String × String)) :=
  fun t identifier limitType =>
    ((checkLimit t.1 identifier limitType).1,
      ((checkLimit t.1 identifier limitType).2, t.2 ++ [(identifier, limitType)]))

/-! ## The Redis store of `storage/redis.go`, with time -/

/-- The state of the Redis model: the time of the server, and for each key the integer
stored and the instant from which the key is expired (`none`: the key does not expire). -/
structure RedisState where
  now : Time
  data : String → Option (Int × Option Time)

/-- The state at the later time `t`. -/
def RedisState.at (s : RedisState) (t : Time) : RedisState :=
  { s with now := t }

/-- What the server sees at a key: the entry, unless the key is absent or expired. -/
def RedisState.live (s : RedisState) (key : String) : Option (Int × Option Time) :=
  match s.data key with
  | some (value, some expiry) => if s.now < expiry then some (value, some expiry) else none
  | some (value, none) => some (value, none)
  | none => none

/-- The state with `key` bound to `entry`. -/
def RedisState.put (s : RedisState) (key : String) (entry : Int × Option Time) : RedisState :=
  { s with data := fun k => if k = key then some entry else s.data k }

/-- The state without `key`. -/
def RedisState.remove (s : RedisState) (key : String) : RedisState :=
  { s with data := fun k => if k = key then none else s.data k }

/-- The empty Redis server, at time 0. -/
def emptyRedis : RedisState :=
  { now := 0, data := fun _ => none }

/-- The reply of Redis to an `INCR` beyond the largest 64-bit integer. -/
def redisOverflow : String :=
  "ERR increment or decrement would overflow"

/-- The Redis command `INCR key`: an absent or expired key counts from 0 and gets no
expiry; a live key keeps its expiry; the largest 64-bit integer cannot be incremented. -/
def redisINCR (s : RedisState) (key : String) : Except String Int × RedisState :=
  match s.live key with
  | none => (.ok 1, s.put key (1, none))
  | some (value, expiry) =>
    if value = 9223372036854775807 then (.error redisOverflow, s)
    else (.ok (value + 1), s.put key (value + 1, expiry))

/-- The Redis command `EXPIRE key seconds`: nothing for an absent or expired key; a live
key is deleted when `seconds ≤ 0` and otherwise expires `seconds` seconds from now. -/
def redisEXPIRE (s : RedisState) (key : String) (seconds : Int) : RedisState :=
  match s.live key with
  | none => s
  | some (value, _) =>
    if seconds ≤ 0 then s.remove key
    else s.put key (value, some (Time.Add s.now (seconds * Second)))

/-- The function `formatSec` of go-redis: a duration in whole seconds, at least one
second for a positive duration. -/
def formatSec (dur : Duration) : Int :=
  if 0 < dur ∧ dur < Second then 1 else Int.tdiv dur Second

/-- The function `formatMs` of go-redis: a duration in whole milliseconds, at least one
millisecond for a positive duration. -/
def formatMs (dur : Duration) : Int :=
  if 0 < dur ∧ dur < 1000000 then 1 else Int.tdiv dur 1000000

/-- The expiry go-redis asks for in `Set(key, value, expiration)`: `PX` milliseconds for a
positive duration that is not a whole number of seconds, `EX` seconds for a positive
whole number of seconds, `KEEPTTL` for the duration -1, and none otherwise. -/
def redisSetExpiry (s : RedisState) (key : String) (expiration : Duration) : Option Time :=
  if expiration > 0 then
    if expiration < Second ∨ Int.tmod expiration Second ≠ 0 then
      some (Time.Add s.now (formatMs expiration * 1000000))
    else some (Time.Add s.now (formatSec expiration * Second))
  else if expiration = -1 then (s.live key).bind Prod.snd
  else none

/-- The type `RedisStorage`, on a server that answers (no network failure).
`Increment` sends `INCR key` and `EXPIRE key seconds` in one pipeline: both are executed,
and the call fails when `INCR` does. -/
def RedisStorage : StorageStrategy RedisState String where
  Increment := fun s key expiration =>
    ((redisINCR s key).1, redisEXPIRE (redisINCR s key).2 key (formatSec expiration))
  Get := fun s key => (.ok (((s.live key).map Prod.fst).getD 0), s)
  Set := fun s key value expiration =>
    (.ok (), s.put key (value, redisSetExpiry s key expiration))
  Exists := fun s key => (.ok (s.live key).isSome, s)
  Delete := fun s key => (.ok (), s.remove key)

/-- The state of the Redis store after `k` consecutive calls
`CheckLimit(identifier, limitType)` starting from the state `s`; the `j`-th call is made
at time `clock j`, which is then the time of the server. -/
def timedStateAfter (config : Config) (clock : Nat → Time) (s : RedisState)
    (identifier limitType : String) : Nat → RedisState
  | 0 => s
  | k + 1 =>
    (CheckLimit RedisStorage config (clock (k + 1))
      ((timedStateAfter config clock s identifier limitType k).at (clock (k + 1)))
      identifier limitType).2

/-- The `k`-th (counting from 1) of the consecutive calls on the Redis store, made at
time `clock k`. -/
def timedCallNo (config : Config) (clock : Nat → Time) (s : RedisState)
    (identifier limitType : String) (k : Nat) :
    Except (CheckError String) LimitResult × RedisState :=
  CheckLimit RedisStorage config (clock k)
    ((timedStateAfter config clock s identifier limitType (k - 1)).at (clock k))
    identifier limitType

/-! ## Basic facts -/

theorem wrap64_of_range (x : Int) (hlo : -9223372036854775808 ≤ x)
    (hhi : x ≤ 9223372036854775807) : wrap64 x = x := by
  unfold wrap64
  rw [Int.emod_eq_of_lt (by omega) (by omega)]
  omega

/-- The parameters of the class "ip". -/
theorem limitParams_ip (config : Config) :
    limitParams config "ip"
      = some (config.IPRequestsPerSecond.val, config.IPBlockDurationSeconds.val) := by
  simp [limitParams]

/-- The parameters of the class "token". -/
theorem limitParams_token (config : Config) :
    limitParams config "token"
      = some (config.TokenRequestsPerSecond.val, config.TokenBlockDurationSeconds.val) := by
  simp [limitParams]

/-- When `limitParams config c = some (N, B)`, the class `c` is "ip" or "token", and `N`
and `B`, its configured requests per window and block duration in seconds, are
representable. -/
theorem limitParams_some (config : Config) (c : String) (N B : Int)
    (hc : limitParams config c = some (N, B)) :
    (c = "ip" ∨ c = "token") ∧ (-9223372036854775808 ≤ N ∧ N ≤ 9223372036854775807)
      ∧ (-9223372036854775808 ≤ B ∧ B ≤ 9223372036854775807) := by
  unfold limitParams at hc
  split_ifs at hc with h1 h2
  · simp only [Option.some.injEq, Prod.mk.injEq] at hc
    obtain ⟨rfl, rfl⟩ := hc
    exact ⟨Or.inl h1, config.IPRequestsPerSecond.property, config.IPBlockDurationSeconds.property⟩
  · simp only [Option.some.injEq, Prod.mk.injEq] at hc
    obtain ⟨rfl, rfl⟩ := hc
    exact ⟨Or.inr h2, config.TokenRequestsPerSecond.property,
      config.TokenBlockDurationSeconds.property⟩

theorem limitParams_none (config : Config) (c : String) (hip : c ≠ "ip")
    (htoken : c ≠ "token") : limitParams config c = none := by
  simp [limitParams, hip, htoken]

/-- What `CheckLimit` does on the in-memory store, for a recognised class. -/
theorem CheckLimit_mock {ε : Type} (config : Config) (now : Time) (m : MockData)
    (i c : String) (N B : Int) (hc : limitParams config c = some (N, B)) :
    CheckLimit (MockStorage ε) config now m i c =
      if (m (blockKey c i)).isSome = true then
        (.ok { Allowed := false, Limit := N, Remaining := 0,
               ResetTime := Time.Add now (blockDurationOf B) }, m)
      else if wrap64 (m.read (counterKey c i) + 1) > N then
        (.ok { Allowed := false, Limit := N, Remaining := 0,
               ResetTime := Time.Add now (blockDurationOf B) },
          (m.insert (counterKey c i) (wrap64 (m.read (counterKey c i) + 1))).insert
            (blockKey c i) 1)
      else
        (.ok { Allowed := true, Limit := N,
               Remaining := wrap64 (N - wrap64 (m.read (counterKey c i) + 1)),
               ResetTime := Time.Add now Second },
          m.insert (counterKey c i) (wrap64 (m.read (counterKey c i) + 1))) := by
  unfold CheckLimit
  rw [hc]
  simp only [MockStorage]
  cases h : (m (blockKey c i)).isSome
  · by_cases h2 : wrap64 (m.read (counterKey c i) + 1) > N
    · simp [h2]
    · simp [h2]
  · simp

/-! ## Invalid limit types -/

/-- C1: for a limit type other than exactly "ip" and "token", `CheckLimit` returns the
invalid-limit-type error and no result, on every store and in every state, and the state
of the store after the call is the state before it; run on a journaled store, the call
leaves the journal as it was, so no store operation is performed at all. -/
theorem CheckLimit_invalid_limit_type {σ ε : Type} (storage : StorageStrategy σ ε)
    (config : Config) (now : Time) (s : σ) (identifier limitType : String)
    (hip : limitType ≠ "ip") (htoken : limitType ≠ "token") :
    CheckLimit storage config now s identifier limitType
        = (.error (.invalidLimitType ("invalid limit type: " ++ limitType)), s)
      ∧ ∀ journal : List StoreCall,
          (CheckLimit (journaled storage) config now (s, journal) identifier limitType).2
            = (s, journal) := by
  constructor
  · unfold CheckLimit
    rw [limitParams_none config limitType hip htoken]
  · intro journal
    unfold CheckLimit
    rw [limitParams_none config limitType hip htoken]

/-- The limit type "user" of the specification, on the empty in-memory store. -/
theorem CheckLimit_invalid_limit_type_witness :
    ("user" ≠ "ip" ∧ "user" ≠ "token") ∧
    (CheckLimit (MockStorage Unit) testConfig 0 NewMockStorage "1.2.3.4" "user"
        = (.error (.invalidLimitType ("invalid limit type: " ++ "user")), NewMockStorage)
      ∧ ∀ journal : List StoreCall,
          (CheckLimit (journaled (MockStorage Unit)) testConfig 0 (NewMockStorage, journal)
            "1.2.3.4" "user").2 = (NewMockStorage, journal)) :=
  ⟨⟨by decide, by decide⟩,
    CheckLimit_invalid_limit_type (MockStorage Unit) testConfig 0 NewMockStorage "1.2.3.4"
      "user" (by decide) (by decide)⟩

theorem MockData.insert_same (m : MockData) (key : String) (v : Int) :
    m.insert key v key = some v := by
  simp [MockData.insert]

theorem MockData.insert_other (m : MockData) (key k : String) (v : Int) (h : k ≠ key) :
    m.insert key v k = m k := by
  simp [MockData.insert, h]

theorem MockData.insert_insert (m : MockData) (key : String) (v w : Int) :
    (m.insert key v).insert key w = m.insert key w := by
  funext k
  by_cases h : k = key <;> simp [MockData.insert, h]

/-! ## Store keys -/

theorem counterKey_ne_blockKey (c i c' i' : String) : counterKey c i ≠ blockKey c' i' := by
  intro h
  have h2 := congrArg String.data h
  simp [counterKey, blockKey, String.data_append] at h2

theorem counterKey_inj (c1 i1 c2 i2 : String) (h1 : c1 = "ip" ∨ c1 = "token")
    (h2 : c2 = "ip" ∨ c2 = "token") (h : counterKey c1 i1 = counterKey c2 i2) :
    c1 = c2 ∧ i1 = i2 := by
  have hd := congrArg String.data h
  rcases h1 with rfl | rfl <;> rcases h2 with rfl | rfl <;>
    simp [counterKey, String.data_append, String.ext_iff] at hd ⊢ <;> exact hd

theorem blockKey_inj (c1 i1 c2 i2 : String) (h1 : c1 = "ip" ∨ c1 = "token")
    (h2 : c2 = "ip" ∨ c2 = "token") (h : blockKey c1 i1 = blockKey c2 i2) :
    c1 = c2 ∧ i1 = i2 := by
  have hd := congrArg String.data h
  rcases h1 with rfl | rfl <;> rcases h2 with rfl | rfl <;>
    simp [blockKey, String.data_append, String.ext_iff] at hd ⊢ <;> exact hd

/-- C7: the keys `CheckLimit` derives are injective in (class, identifier): for classes
among "ip" and "token" and arbitrary identifier strings, equal counter keys come from the
same class and the same identifier, likewise equal block keys, and a counter key is never
a block key (for any strings at all). -/
theorem store_keys_injective (c1 i1 c2 i2 : String) (h1 : c1 = "ip" ∨ c1 = "token")
    (h2 : c2 = "ip" ∨ c2 = "token") :
    ("rate_limit:" ++ c1 ++ ":" ++ i1 = "rate_limit:" ++ c2 ++ ":" ++ i2 → c1 = c2 ∧ i1 = i2)
      ∧ ("block:" ++ c1 ++ ":" ++ i1 = "block:" ++ c2 ++ ":" ++ i2 → c1 = c2 ∧ i1 = i2)
      ∧ (counterKey c1 i1 = counterKey c2 i2 → c1 = c2 ∧ i1 = i2)
      ∧ (blockKey c1 i1 = blockKey c2 i2 → c1 = c2 ∧ i1 = i2)
      ∧ counterKey c1 i1 ≠ blockKey c2 i2 :=
  ⟨counterKey_inj c1 i1 c2 i2 h1 h2, blockKey_inj c1 i1 c2 i2 h1 h2,
    counterKey_inj c1 i1 c2 i2 h1 h2, blockKey_inj c1 i1 c2 i2 h1 h2,
    counterKey_ne_blockKey c1 i1 c2 i2⟩

/-- Identifiers that contain ':' and start with a class name: "ip" with "token:x" against
"token" with "x", and "ip" with "a:b" against "ip" with "a:b". -/
theorem store_keys_injective_witness :
    (("ip" = "ip" ∨ "ip" = "token") ∧ ("token" = "ip" ∨ "token" = "token")) ∧
    (("rate_limit:" ++ "ip" ++ ":" ++ "token:x" = "rate_limit:" ++ "token" ++ ":" ++ "x"
        → "ip" = "token" ∧ "token:x" = "x")
      ∧ ("block:" ++ "ip" ++ ":" ++ "token:x" = "block:" ++ "token" ++ ":" ++ "x"
        → "ip" = "token" ∧ "token:x" = "x")
      ∧ (counterKey "ip" "token:x" = counterKey "token" "x" → "ip" = "token" ∧ "token:x" = "x")
      ∧ (blockKey "ip" "token:x" = blockKey "token" "x" → "ip" = "token" ∧ "token:x" = "x")
      ∧ counterKey "ip" "token:x" ≠ blockKey "token" "x") :=
  ⟨⟨by decide, by decide⟩,
    store_keys_injective "ip" "token:x" "token" "x" (by decide) (by decide)⟩

/-! ## Consecutive calls on the in-memory store -/

/-- The store after `k ≤ N` consecutive calls from a state without the two keys: the
counter holds `k`, nothing else has changed. -/
theorem mock_stateAfter_le {ε : Type} (config : Config) (clock : Nat → Time) (m0 : MockData)
    (i c : String) (N B : Int) (hc : limitParams config c = some (N, B))
    (hck : m0 (counterKey c i) = none) (hbk : m0 (blockKey c i) = none) (k : Nat)
    (hk : (k : Int) ≤ N) :
    stateAfter (MockStorage ε) config clock m0 i c k
      = if k = 0 then m0 else m0.insert (counterKey c i) k := by
  have hr := (limitParams_some config c N B hc).2.1
  induction k with
  | zero => simp [stateAfter]
  | succ k ih =>
    have ih2 := ih (by omega)
    have hne : blockKey c i ≠ counterKey c i := fun h => counterKey_ne_blockKey c i c i h.symm
    have hb : stateAfter (MockStorage ε) config clock m0 i c k (blockKey c i) = none := by
      rw [ih2]; split_ifs
      · exact hbk
      · rw [MockData.insert_other _ _ _ _ hne]; exact hbk
    have hrd : MockData.read (stateAfter (MockStorage ε) config clock m0 i c k)
        (counterKey c i) = k := by
      rw [ih2]; split_ifs with h0
      · simp [MockData.read, hck, h0]
      · simp [MockData.read, MockData.insert_same]
    have hw : wrap64 ((k : Int) + 1) = k + 1 := wrap64_of_range _ (by omega) (by omega)
    rw [stateAfter, CheckLimit_mock config _ _ i c N B hc, hb, hrd, hw]
    have hle : ¬ ((k : Int) + 1 > N) := by push_cast at hk; omega
    simp only [Option.isSome_none, Bool.false_eq_true, if_false, hle]
    rw [ih2, if_neg (Nat.succ_ne_zero k)]
    by_cases h0 : k = 0
    · simp [h0]
    · rw [if_neg h0, MockData.insert_insert]; push_cast; rfl

/-- The `k`-th consecutive call, `1 ≤ k ≤ N`, from a state without the two keys. -/
theorem mock_callNo_le {ε : Type} (config : Config) (clock : Nat → Time) (m0 : MockData)
    (i c : String) (N B : Int) (hc : limitParams config c = some (N, B))
    (hck : m0 (counterKey c i) = none) (hbk : m0 (blockKey c i) = none) (k : Nat)
    (hk1 : 1 ≤ k) (hk : (k : Int) ≤ N) :
    callNo (MockStorage ε) config clock m0 i c k
      = (.ok { Allowed := true, Limit := N, Remaining := N - k,
               ResetTime := Time.Add (clock k) Second },
          m0.insert (counterKey c i) k) := by
  obtain ⟨j, rfl⟩ : ∃ j, k = j + 1 := ⟨k - 1, by omega⟩
  have hr := (limitParams_some config c N B hc).2.1
  have hs := mock_stateAfter_le (ε := ε) config clock m0 i c N B hc hck hbk j
    (by push_cast at hk; omega)
  have hne : blockKey c i ≠ counterKey c i := fun h => counterKey_ne_blockKey c i c i h.symm
  have hb : stateAfter (MockStorage ε) config clock m0 i c j (blockKey c i) = none := by
    rw [hs]; split_ifs
    · exact hbk
    · rw [MockData.insert_other _ _ _ _ hne]; exact hbk
  have hrd : MockData.read (stateAfter (MockStorage ε) config clock m0 i c j)
      (counterKey c i) = j := by
    rw [hs]; split_ifs with h0
    · simp [MockData.read, hck, h0]
    · simp [MockData.read, MockData.insert_same]
  have hw : wrap64 ((j : Int) + 1) = j + 1 := wrap64_of_range _ (by omega) (by omega)
  have hw2 : wrap64 (N - ((j : Int) + 1)) = N - (j + 1) :=
    wrap64_of_range _ (by push_cast at hk; omega) (by omega)
  have hle : ¬ ((j : Int) + 1 > N) := by push_cast at hk; omega
  unfold callNo
  rw [Nat.add_sub_cancel, CheckLimit_mock config _ _ i c N B hc, hb, hrd, hw, hw2]
  simp only [Option.isSome_none, Bool.false_eq_true, if_false, hle]
  rw [hs]
  by_cases h0 : j = 0
  · simp [h0]
  · rw [if_neg h0, MockData.insert_insert]; push_cast; rfl

/-- C2: for a recognised class `c` whose configured requests per window is `N > 0`
(`limitParams config c = some (N, B)`: `c` is "ip" or "token", `N` its limit and `B` its
block duration in seconds), any
identifier `i`, and an in-memory store holding neither the counter key nor the block key
of `(c, i)`, the `k`-th consecutive `CheckLimit(i, c)`, `1 ≤ k ≤ N`, returns
`Allowed = true`, `Limit = N` and `Remaining = N - k`; hence `Remaining` falls by one with
each call, from `N - 1` down to `0`. -/
theorem first_calls_allowed {ε : Type} (config : Config) (clock : Nat → Time)
    (m0 : MockData) (i c : String) (N B : Int) (hc : limitParams config c = some (N, B))
    (_hN : 0 < N) (hck : m0 (counterKey c i) = none) (hbk : m0 (blockKey c i) = none)
    (k : Nat) (hk1 : 1 ≤ k) (hk : (k : Int) ≤ N) :
    ∃ r : LimitResult,
      (callNo (MockStorage ε) config clock m0 i c k).1 = .ok r
        ∧ r.Allowed = true ∧ r.Limit = N ∧ r.Remaining = N - k
        ∧ (0 ≤ r.Remaining ∧ r.Remaining < N) := by
  refine ⟨_, congrArg Prod.fst (mock_callNo_le config clock m0 i c N B hc hck hbk k hk1 hk),
    rfl, rfl, rfl, ?_⟩
  constructor <;> simp only <;> omega

/-- The third of five calls for the IP "192.168.1.1" of the unit test. -/
theorem first_calls_allowed_witness :
    (limitParams testConfig "ip" = some (5, 60) ∧ (0 : Int) < 5
      ∧ NewMockStorage (counterKey "ip" "192.168.1.1") = none
      ∧ NewMockStorage (blockKey "ip" "192.168.1.1") = none ∧ 1 ≤ 3 ∧ ((3 : Nat) : Int) ≤ 5) ∧
    ∃ r : LimitResult,
      (callNo (MockStorage Unit) testConfig (fun _ => 0) NewMockStorage "192.168.1.1" "ip"
          3).1 = .ok r
        ∧ r.Allowed = true ∧ r.Limit = 5 ∧ r.Remaining = 5 - (3 : Nat)
        ∧ (0 ≤ r.Remaining ∧ r.Remaining < 5) :=
  ⟨⟨by decide, by decide, rfl, rfl, by decide, by decide⟩,
    first_calls_allowed testConfig (fun _ => 0) NewMockStorage "192.168.1.1" "ip" 5 60
      (by decide) (by decide) rfl rfl 3 (by decide) (by decide)⟩

/-- The journal of one call on the journaled in-memory store, for a recognised class. -/
theorem CheckLimit_journaled_mock {ε : Type} (config : Config) (now : Time) (m : MockData)
    (journal : List StoreCall) (i c : String) (N B : Int)
    (hc : limitParams config c = some (N, B)) :
    (CheckLimit (journaled (MockStorage ε)) config now (m, journal) i c).2.2 =
      if (m (blockKey c i)).isSome = true then
        journal ++ [StoreCall.Exists (blockKey c i)]
      else if wrap64 (m.read (counterKey c i) + 1) > N then
        journal ++ [StoreCall.Exists (blockKey c i), StoreCall.Increment (counterKey c i) Second,
          StoreCall.Set (blockKey c i) 1 (blockDurationOf B)]
      else
        journal ++ [StoreCall.Exists (blockKey c i),
          StoreCall.Increment (counterKey c i) Second] := by
  unfold CheckLimit
  rw [hc]
  simp only [MockStorage, journaled]
  cases h : (m (blockKey c i)).isSome
  · by_cases h2 : wrap64 (m.read (counterKey c i) + 1) > N
    · simp [h2]
    · simp [h2]
  · simp

/-- The store after the `(N+1)`-th and every later consecutive call, when `N + 1` is
representable: the counter stays at `N + 1` and the block key holds 1. -/
theorem mock_stateAfter_gt {ε : Type} (config : Config) (clock : Nat → Time) (m0 : MockData)
    (i c : String) (N B : Int) (hc : limitParams config c = some (N, B)) (hN : 0 < N)
    (hN2 : N < 9223372036854775807)
    (hck : m0 (counterKey c i) = none) (hbk : m0 (blockKey c i) = none) (k : Nat)
    (hk : N + 1 ≤ (k : Int)) :
    stateAfter (MockStorage ε) config clock m0 i c k
      = (m0.insert (counterKey c i) (N + 1)).insert (blockKey c i) 1 := by
  induction k with
  | zero => exfalso; push_cast at hk; omega
  | succ k ih =>
    rw [stateAfter, CheckLimit_mock config _ _ i c N B hc]
    by_cases h : N + 1 ≤ (k : Int)
    · rw [ih h]
      simp [MockData.insert_same]
    · have hkN : (k : Int) = N := by push_cast at hk; omega
      have hk0 : k ≠ 0 := by rintro rfl; simp at hkN; omega
      have hs := mock_stateAfter_le (ε := ε) config clock m0 i c N B hc hck hbk k (by omega)
      rw [if_neg hk0] at hs
      have hne : blockKey c i ≠ counterKey c i :=
        fun h => counterKey_ne_blockKey c i c i h.symm
      have hb : stateAfter (MockStorage ε) config clock m0 i c k (blockKey c i) = none := by
        rw [hs, MockData.insert_other _ _ _ _ hne]; exact hbk
      have hrd : MockData.read (stateAfter (MockStorage ε) config clock m0 i c k)
          (counterKey c i) = N := by
        rw [hs]; simp [MockData.read, MockData.insert_same, hkN]
      have hw : wrap64 (N + 1) = N + 1 := wrap64_of_range _ (by omega) (by omega)
      rw [hb, hrd, hw]
      simp only [Option.isSome_none, Bool.false_eq_true, if_false]
      rw [if_pos (by omega), hs, MockData.insert_insert]

/-- The `k`-th consecutive call for `k ≥ N + 1`, when `N + 1` is representable: a denial,
leaving the counter at `N + 1` and the block key at 1. -/
theorem mock_callNo_gt {ε : Type} (config : Config) (clock : Nat → Time) (m0 : MockData)
    (i c : String) (N B : Int) (hc : limitParams config c = some (N, B)) (hN : 0 < N)
    (hN2 : N < 9223372036854775807)
    (hck : m0 (counterKey c i) = none) (hbk : m0 (blockKey c i) = none) (k : Nat)
    (hk : N + 1 ≤ (k : Int)) :
    callNo (MockStorage ε) config clock m0 i c k
      = (.ok { Allowed := false, Limit := N, Remaining := 0,
               ResetTime := Time.Add (clock k) (blockDurationOf B) },
          (m0.insert (counterKey c i) (N + 1)).insert (blockKey c i) 1) := by
  unfold callNo
  rw [CheckLimit_mock config _ _ i c N B hc]
  by_cases h : N + 1 ≤ ((k - 1 : Nat) : Int)
  · rw [mock_stateAfter_gt config clock m0 i c N B hc hN hN2 hck hbk (k - 1) h]
    simp [MockData.insert_same]
  · have hkN : ((k - 1 : Nat) : Int) = N := by omega
    have hk0 : k - 1 ≠ 0 := by intro h0; rw [h0] at hkN; simp at hkN; omega
    have hs := mock_stateAfter_le (ε := ε) config clock m0 i c N B hc hck hbk (k - 1)
      (by omega)
    rw [if_neg hk0] at hs
    have hne : blockKey c i ≠ counterKey c i :=
      fun h => counterKey_ne_blockKey c i c i h.symm
    have hb : stateAfter (MockStorage ε) config clock m0 i c (k - 1) (blockKey c i)
        = none := by
      rw [hs, MockData.insert_other _ _ _ _ hne]; exact hbk
    have hrd : MockData.read (stateAfter (MockStorage ε) config clock m0 i c (k - 1))
        (counterKey c i) = N := by
      rw [hs]; simp [MockData.read, MockData.insert_same, hkN]
    have hw : wrap64 (N + 1) = N + 1 := wrap64_of_range _ (by omega) (by omega)
    rw [hb, hrd, hw]
    simp only [Option.isSome_none, Bool.false_eq_true, if_false]
    rw [if_pos (by omega), hs, MockData.insert_insert]

/-- The block duration is `blockDurationSeconds` seconds when that many nanoseconds fit
an `int64`. -/
theorem blockDurationOf_of_range (B : Int) (hlo : -9223372036 ≤ B) (hhi : B ≤ 9223372036) :
    blockDurationOf B = B * 1000000000 := by
  unfold blockDurationOf Second
  exact wrap64_of_range _ (by omega) (by omega)

/-- With the largest `int64` as limit, the counter of the in-memory store wraps around at
call number 2^63, which is therefore allowed. -/
theorem mock_callNo_wrap {ε : Type} (config : Config) (clock : Nat → Time) (m0 : MockData)
    (i c : String) (B : Int)
    (hc : limitParams config c = some (9223372036854775807, B))
    (hck : m0 (counterKey c i) = none) (hbk : m0 (blockKey c i) = none) :
    (callNo (MockStorage ε) config clock m0 i c 9223372036854775808).1
      = .ok { Allowed := true, Limit := 9223372036854775807, Remaining := -1,
              ResetTime := Time.Add (clock 9223372036854775808) Second } := by
  have hs := mock_stateAfter_le (ε := ε) config clock m0 i c _ B hc hck hbk
    9223372036854775807 (by norm_num)
  rw [if_neg (by norm_num)] at hs
  have hne : blockKey c i ≠ counterKey c i :=
    fun h => counterKey_ne_blockKey c i c i h.symm
  have hb : stateAfter (MockStorage ε) config clock m0 i c 9223372036854775807
      (blockKey c i) = none := by
    rw [hs, MockData.insert_other _ _ _ _ hne]; exact hbk
  have hrd : MockData.read (stateAfter (MockStorage ε) config clock m0 i c
      9223372036854775807) (counterKey c i) = 9223372036854775807 := by
    rw [hs]; simp [MockData.read, MockData.insert_same]
  have hw : wrap64 (9223372036854775807 + 1) = -9223372036854775808 := by decide
  have hw2 : wrap64 (9223372036854775807 - -9223372036854775808) = -1 := by decide
  have hsub : (9223372036854775808 : Nat) - 1 = 9223372036854775807 := by norm_num
  unfold callNo
  rw [hsub, CheckLimit_mock config _ _ i c _ B hc, hb, hrd, hw, hw2]
  simp

/-! ## The call after the limit -/

/-- C3 (as amended): for a recognised class `c` with limit `0 < N < 2^63 - 1`, fresh keys
for `(c, i)` and the in-memory store, the `(N+1)`-th consecutive `CheckLimit(i, c)`
returns `Allowed = false`, `Limit = N`, `Remaining = 0`; its store operations are the
existence check, the increment and one `Set` of the block key "block:" + c + ":" + i with
value 1 and the expiry `time.Duration(blockDurationSeconds) * time.Second`, so that the
block key exists afterwards; that expiry is `blockDurationSeconds` seconds whenever
`|blockDurationSeconds| ≤ 9223372036`. -/
theorem call_after_limit_denied {ε : Type} (config : Config) (clock : Nat → Time)
    (m0 : MockData) (i c : String) (N B : Int) (hc : limitParams config c = some (N, B))
    (hN : 0 < N) (hN2 : N < 9223372036854775807)
    (hck : m0 (counterKey c i) = none) (hbk : m0 (blockKey c i) = none)
    (k : Nat) (hk : (k : Int) = N + 1) :
    ∃ m1 : MockData,
      callNo (MockStorage ε) config clock m0 i c k
          = (.ok { Allowed := false, Limit := N, Remaining := 0,
                   ResetTime := Time.Add (clock k) (blockDurationOf B) }, m1)
        ∧ m1 ("block:" ++ c ++ ":" ++ i) = some 1
        ∧ (MockStorage ε).Exists m1 (blockKey c i) = (.ok true, m1)
        ∧ (∀ journal : List StoreCall,
            (CheckLimit (journaled (MockStorage ε)) config (clock k)
              (stateAfter (MockStorage ε) config clock m0 i c (k - 1), journal) i c).2.2
              = journal ++ [StoreCall.Exists (blockKey c i),
                  StoreCall.Increment (counterKey c i) Second,
                  StoreCall.Set (blockKey c i) 1 (blockDurationOf B)])
        ∧ (-9223372036 ≤ B ∧ B ≤ 9223372036 → blockDurationOf B = B * 1000000000) := by
  refine ⟨_, mock_callNo_gt config clock m0 i c N B hc hN hN2 hck hbk k (by omega), ?_, ?_,
    ?_, fun h => blockDurationOf_of_range B h.1 h.2⟩
  · exact MockData.insert_same _ _ _
  · simp [MockStorage, MockData.insert_same]
  · intro journal
    have hkN : ((k - 1 : Nat) : Int) = N := by omega
    have hk0 : k - 1 ≠ 0 := by intro h0; rw [h0] at hkN; simp at hkN; omega
    have hs := mock_stateAfter_le (ε := ε) config clock m0 i c N B hc hck hbk (k - 1)
      (by omega)
    rw [if_neg hk0] at hs
    have hne : blockKey c i ≠ counterKey c i :=
      fun h => counterKey_ne_blockKey c i c i h.symm
    have hb : stateAfter (MockStorage ε) config clock m0 i c (k - 1) (blockKey c i)
        = none := by
      rw [hs, MockData.insert_other _ _ _ _ hne]; exact hbk
    have hrd : MockData.read (stateAfter (MockStorage ε) config clock m0 i c (k - 1))
        (counterKey c i) = N := by
      rw [hs]; simp [MockData.read, MockData.insert_same, hkN]
    have hw : wrap64 (N + 1) = N + 1 := wrap64_of_range _ (by omega) (by omega)
    rw [CheckLimit_journaled_mock config _ _ _ i c N B hc, hb, hrd, hw]
    simp only [Option.isSome_none, Bool.false_eq_true, if_false]
    rw [if_pos (by omega)]

/-- The scenario of the specification: 5 requests per second and a 60 s block per IP; the
6th call for "1.2.3.4" is denied with limit 5 and remaining 0. -/
theorem call_after_limit_denied_witness :
    (limitParams testConfig "ip" = some (5, 60) ∧ (0 : Int) < 5
      ∧ (5 : Int) < 9223372036854775807
      ∧ NewMockStorage (counterKey "ip" "1.2.3.4") = none
      ∧ NewMockStorage (blockKey "ip" "1.2.3.4") = none ∧ ((6 : Nat) : Int) = 5 + 1) ∧
    ∃ m1 : MockData,
      callNo (MockStorage Unit) testConfig (fun _ => 0) NewMockStorage "1.2.3.4" "ip" 6
          = (.ok { Allowed := false, Limit := 5, Remaining := 0,
                   ResetTime := Time.Add 0 (blockDurationOf 60) }, m1)
        ∧ m1 ("block:" ++ "ip" ++ ":" ++ "1.2.3.4") = some 1
        ∧ (MockStorage Unit).Exists m1 (blockKey "ip" "1.2.3.4") = (.ok true, m1)
        ∧ (∀ journal : List StoreCall,
            (CheckLimit (journaled (MockStorage Unit)) testConfig 0
              (stateAfter (MockStorage Unit) testConfig (fun _ => 0) NewMockStorage "1.2.3.4"
                "ip" (6 - 1), journal) "1.2.3.4" "ip").2.2
              = journal ++ [StoreCall.Exists (blockKey "ip" "1.2.3.4"),
                  StoreCall.Increment (counterKey "ip" "1.2.3.4") Second,
                  StoreCall.Set (blockKey "ip" "1.2.3.4") 1 (blockDurationOf 60)])
        ∧ (-9223372036 ≤ (60 : Int) ∧ (60 : Int) ≤ 9223372036
            → blockDurationOf 60 = 60 * 1000000000) :=
  ⟨⟨by decide, by decide, by decide, rfl, rfl, by decide⟩,
    call_after_limit_denied testConfig (fun _ => 0) NewMockStorage "1.2.3.4" "ip" 5 60
      (by decide) (by decide) (by decide) rfl rfl 6 (by decide)⟩

/-- C3 as stated fails at the ends of the `int64` range. With a block duration of 10^10
seconds and a limit of 1, the 2nd call writes the block key with an expiry of
-8446744073709551616 ns, not 10^10 seconds; with the limit 2^63 - 1, call number 2^63 is
allowed (the counter of the store has wrapped around) instead of denied. -/
theorem call_after_limit_overflow :
    (limitParams longBlockConfig "ip" = some (1, 10000000000)
      ∧ (callNo (journaled (MockStorage Unit)) longBlockConfig (fun _ => 0)
          (NewMockStorage, []) "1.2.3.4" "ip" 2).2.2
        = [StoreCall.Exists "block:ip:1.2.3.4",
            StoreCall.Increment "rate_limit:ip:1.2.3.4" 1000000000,
            StoreCall.Exists "block:ip:1.2.3.4",
            StoreCall.Increment "rate_limit:ip:1.2.3.4" 1000000000,
            StoreCall.Set "block:ip:1.2.3.4" 1 (-8446744073709551616)]
      ∧ (-8446744073709551616 : Int) ≠ 10000000000 * 1000000000)
    ∧ (limitParams maxLimitConfig "ip" = some (9223372036854775807, 60)
      ∧ (callNo (MockStorage Unit) maxLimitConfig (fun _ => 0) NewMockStorage "1.2.3.4" "ip"
          9223372036854775808).1
        = .ok { Allowed := true, Limit := 9223372036854775807, Remaining := -1,
                ResetTime := Time.Add 0 Second }) :=
  ⟨⟨by decide, by decide, by decide⟩, by decide,
    mock_callNo_wrap maxLimitConfig (fun _ => 0) NewMockStorage "1.2.3.4" "ip" 60
      (by decide) rfl rfl⟩

/-! ## Calls while blocked -/

/-- C4 (as amended): for a recognised class `c` and an identifier `i`, if the store
reports that the block key "block:" + c + ":" + i exists, `CheckLimit(i, c)` returns
`Allowed = false`, `Limit` = the requests per window of `c`, `Remaining = 0` and
`ResetTime = now + time.Duration(blockDurationSeconds) * time.Second`, which is
`now + blockDurationSeconds` seconds whenever `|blockDurationSeconds| ≤ 9223372036`; the
existence check is its only store operation (no `Increment`, no `Set`), the store is left
in the state the existence check left it in, and on the in-memory store every key,
the counter of `(c, i)` included, keeps its value. -/
theorem blocked_call_short_circuits {σ ε : Type} (storage : StorageStrategy σ ε)
    (config : Config) (now : Time) (s s1 : σ) (i c : String) (N B : Int)
    (hc : limitParams config c = some (N, B))
    (hex : storage.Exists s (blockKey c i) = (.ok true, s1)) :
    CheckLimit storage config now s i c
        = (.ok { Allowed := false, Limit := N, Remaining := 0,
                 ResetTime := Time.Add now (blockDurationOf B) }, s1)
      ∧ (∀ journal : List StoreCall,
          (CheckLimit (journaled storage) config now (s, journal) i c).2
            = (s1, journal ++ [StoreCall.Exists (blockKey c i)]))
      ∧ (∀ m : MockData, (m (blockKey c i)).isSome = true →
          (CheckLimit (MockStorage ε) config now m i c).2 = m)
      ∧ (-9223372036 ≤ B ∧ B ≤ 9223372036 →
          Time.Add now (blockDurationOf B) = now + B * 1000000000) := by
  refine ⟨?_, ?_, ?_, ?_⟩
  · unfold CheckLimit
    rw [hc]
    simp only [hex]
  · intro journal
    unfold CheckLimit
    rw [hc]
    simp only [journaled, hex]
  · intro m hm
    rw [CheckLimit_mock config now m i c N B hc, if_pos hm]
  · intro h
    rw [blockDurationOf_of_range B h.1 h.2]
    rfl

/-- A blocked IP on the in-memory store under the configuration of the unit test. -/
theorem blocked_call_short_circuits_witness :
    (limitParams testConfig "ip" = some (5, 60)
      ∧ (MockStorage Unit).Exists (NewMockStorage.insert (blockKey "ip" "1.2.3.4") 1)
          (blockKey "ip" "1.2.3.4")
        = (.ok true, NewMockStorage.insert (blockKey "ip" "1.2.3.4") 1)) ∧
    (CheckLimit (MockStorage Unit) testConfig 7
        (NewMockStorage.insert (blockKey "ip" "1.2.3.4") 1) "1.2.3.4" "ip"
        = (.ok { Allowed := false, Limit := 5, Remaining := 0,
                 ResetTime := Time.Add 7 (blockDurationOf 60) },
            NewMockStorage.insert (blockKey "ip" "1.2.3.4") 1)
      ∧ (∀ journal : List StoreCall,
          (CheckLimit (journaled (MockStorage Unit)) testConfig 7
            (NewMockStorage.insert (blockKey "ip" "1.2.3.4") 1, journal) "1.2.3.4" "ip").2
            = (NewMockStorage.insert (blockKey "ip" "1.2.3.4") 1,
                journal ++ [StoreCall.Exists (blockKey "ip" "1.2.3.4")]))
      ∧ (∀ m : MockData, (m (blockKey "ip" "1.2.3.4")).isSome = true →
          (CheckLimit (MockStorage Unit) testConfig 7 m "1.2.3.4" "ip").2 = m)
      ∧ (-9223372036 ≤ (60 : Int) ∧ (60 : Int) ≤ 9223372036 →
          Time.Add 7 (blockDurationOf 60) = 7 + 60 * 1000000000)) :=
  ⟨⟨by decide, by simp [MockStorage, MockData.insert_same]⟩,
    blocked_call_short_circuits (MockStorage Unit) testConfig 7
      (NewMockStorage.insert (blockKey "ip" "1.2.3.4") 1)
      (NewMockStorage.insert (blockKey "ip" "1.2.3.4") 1) "1.2.3.4" "ip" 5 60 (by decide)
      (by simp [MockStorage, MockData.insert_same])⟩

/-- C4 as stated fails for a block duration of 10^10 seconds: on a store holding the
block key, the call at time 0 returns the reset time -8446744073709551616 ns, which is
not 0 + 10^10 seconds. -/
theorem blocked_call_reset_time_overflow :
    limitParams longBlockConfig "ip" = some (1, 10000000000)
      ∧ (NewMockStorage.insert (blockKey "ip" "1.2.3.4") 1) (blockKey "ip" "1.2.3.4") = some 1
      ∧ (CheckLimit (MockStorage Unit) longBlockConfig 0
          (NewMockStorage.insert (blockKey "ip" "1.2.3.4") 1) "1.2.3.4" "ip").1
        = .ok { Allowed := false, Limit := 1, Remaining := 0,
                ResetTime := -8446744073709551616 }
      ∧ (-8446744073709551616 : Int) ≠ 0 + 10000000000 * 1000000000 :=
  ⟨by decide, by decide, by decide, by decide⟩

/-! ## Allowed exactly up to the limit -/

/-- C5 (as amended): for a recognised class `c` with limit `0 < N < 2^63 - 1`, any
identifier `i` and any `k ≥ 1`, the `k`-th consecutive `CheckLimit(i, c)` on the in-memory
store (no expiry, no errors) started without keys for `(c, i)` returns a result, and that
result has `Allowed = true` if and only if `k ≤ N`. -/
theorem allowed_iff_within_limit {ε : Type} (config : Config) (clock : Nat → Time)
    (m0 : MockData) (i c : String) (N B : Int) (hc : limitParams config c = some (N, B))
    (hN : 0 < N) (hN2 : N < 9223372036854775807)
    (hck : m0 (counterKey c i) = none) (hbk : m0 (blockKey c i) = none)
    (k : Nat) (hk1 : 1 ≤ k) :
    ∃ r : LimitResult,
      (callNo (MockStorage ε) config clock m0 i c k).1 = .ok r
        ∧ (r.Allowed = true ↔ (k : Int) ≤ N) := by
  by_cases hk : (k : Int) ≤ N
  · exact ⟨_, congrArg Prod.fst (mock_callNo_le config clock m0 i c N B hc hck hbk k hk1 hk),
      by simp [hk]⟩
  · exact ⟨_, congrArg Prod.fst
      (mock_callNo_gt config clock m0 i c N B hc hN hN2 hck hbk k (by omega)), by simp [hk]⟩

/-- The scenario "Token limit exceeded" of the unit test: the 12th call of 10. -/
theorem allowed_iff_within_limit_witness :
    (limitParams testConfig "token" = some (10, 120) ∧ (0 : Int) < 10
      ∧ (10 : Int) < 9223372036854775807
      ∧ NewMockStorage (counterKey "token" "def456") = none
      ∧ NewMockStorage (blockKey "token" "def456") = none ∧ 1 ≤ 12) ∧
    ∃ r : LimitResult,
      (callNo (MockStorage Unit) testConfig (fun _ => 0) NewMockStorage "def456" "token"
          12).1 = .ok r
        ∧ (r.Allowed = true ↔ ((12 : Nat) : Int) ≤ 10) :=
  ⟨⟨by decide, by decide, by decide, rfl, rfl, by decide⟩,
    allowed_iff_within_limit testConfig (fun _ => 0) NewMockStorage "def456" "token" 10 120
      (by decide) (by decide) (by decide) rfl rfl 12 (by decide)⟩

/-- C5 as stated fails for the limit 2^63 - 1: call number 2^63 is allowed although it
comes after the limit, because the `int64` counter of the store has wrapped around. -/
theorem allowed_beyond_max_limit :
    limitParams maxLimitConfig "ip" = some (9223372036854775807, 60)
      ∧ NewMockStorage (counterKey "ip" "1.2.3.4") = none
      ∧ NewMockStorage (blockKey "ip" "1.2.3.4") = none
      ∧ ¬ (((9223372036854775808 : Nat) : Int) ≤ 9223372036854775807)
      ∧ ∃ r : LimitResult,
          (callNo (MockStorage Unit) maxLimitConfig (fun _ => 0) NewMockStorage "1.2.3.4"
            "ip" 9223372036854775808).1 = .ok r ∧ r.Allowed = true :=
  ⟨by decide, rfl, rfl, by decide,
    _, mock_callNo_wrap maxLimitConfig (fun _ => 0) NewMockStorage "1.2.3.4" "ip" 60
      (by decide) rfl rfl, rfl⟩

/-- The four scenarios of `TestRateLimiter_CheckLimit`: the 3rd of 5 and the 8th of 10 calls
are allowed, the 6th of 5 and the 12th of 10 are denied. -/
theorem unit_test_scenarios :
    (callNo (MockStorage Unit) testConfig (fun _ => 0) NewMockStorage "192.168.1.1" "ip" 3).1
        = .ok { Allowed := true, Limit := 5, Remaining := 2, ResetTime := 1000000000 }
      ∧ (callNo (MockStorage Unit) testConfig (fun _ => 0) NewMockStorage "192.168.1.2" "ip"
          6).1
        = .ok { Allowed := false, Limit := 5, Remaining := 0, ResetTime := 60000000000 }
      ∧ (callNo (MockStorage Unit) testConfig (fun _ => 0) NewMockStorage "abc123" "token"
          8).1
        = .ok { Allowed := true, Limit := 10, Remaining := 2, ResetTime := 1000000000 }
      ∧ (callNo (MockStorage Unit) testConfig (fun _ => 0) NewMockStorage "def456" "token"
          12).1
        = .ok { Allowed := false, Limit := 10, Remaining := 0, ResetTime := 120000000000 } := by
  decide

/-! ## Distinct identities -/

/-- A call for another pair leaves the two keys of `(c2, i2)` as they were. -/
theorem mock_frame {ε : Type} (config : Config) (now : Time) (m : MockData)
    (i c i2 c2 : String) (h2 : c2 = "ip" ∨ c2 = "token") (hne : ¬ (i = i2 ∧ c = c2)) :
    (CheckLimit (MockStorage ε) config now m i c).2 (counterKey c2 i2) = m (counterKey c2 i2)
      ∧ (CheckLimit (MockStorage ε) config now m i c).2 (blockKey c2 i2)
          = m (blockKey c2 i2) := by
  cases hp : limitParams config c with
  | none => unfold CheckLimit; rw [hp]; exact ⟨rfl, rfl⟩
  | some p =>
    obtain ⟨N, B⟩ := p
    have h1 := (limitParams_some config c N B hp).1
    have hck : counterKey c2 i2 ≠ counterKey c i := fun h =>
      hne ⟨(counterKey_inj c2 i2 c i h2 h1 h).2.symm, (counterKey_inj c2 i2 c i h2 h1 h).1.symm⟩
    have hbk : blockKey c2 i2 ≠ blockKey c i := fun h =>
      hne ⟨(blockKey_inj c2 i2 c i h2 h1 h).2.symm, (blockKey_inj c2 i2 c i h2 h1 h).1.symm⟩
    have hcb : counterKey c2 i2 ≠ blockKey c i := counterKey_ne_blockKey c2 i2 c i
    have hbc : blockKey c2 i2 ≠ counterKey c i := fun h => counterKey_ne_blockKey c i c2 i2 h.symm
    rw [CheckLimit_mock config now m i c N B hp]
    split_ifs <;> simp [MockData.insert_other, hck, hbk, hcb, hbc]

/-- On two states that agree on the two keys of `(c, i)`, a call for `(c, i)` returns the
same and leaves states that agree on the two keys. -/
theorem mock_congr {ε : Type} (config : Config) (now : Time) (m m' : MockData)
    (i c : String) (hck : m (counterKey c i) = m' (counterKey c i))
    (hbk : m (blockKey c i) = m' (blockKey c i)) :
    (CheckLimit (MockStorage ε) config now m i c).1
        = (CheckLimit (MockStorage ε) config now m' i c).1
      ∧ (CheckLimit (MockStorage ε) config now m i c).2 (counterKey c i)
          = (CheckLimit (MockStorage ε) config now m' i c).2 (counterKey c i)
      ∧ (CheckLimit (MockStorage ε) config now m i c).2 (blockKey c i)
          = (CheckLimit (MockStorage ε) config now m' i c).2 (blockKey c i) := by
  cases hp : limitParams config c with
  | none => unfold CheckLimit; rw [hp]; exact ⟨rfl, hck, hbk⟩
  | some p =>
    obtain ⟨N, B⟩ := p
    have hrd : m.read (counterKey c i) = m'.read (counterKey c i) := by
      simp [MockData.read, hck]
    have hbc : blockKey c i ≠ counterKey c i := fun h => counterKey_ne_blockKey c i c i h.symm
    rw [CheckLimit_mock config now m i c N B hp, CheckLimit_mock config now m' i c N B hp,
      hrd, hbk]
    split_ifs <;>
      simp [MockData.insert_other, MockData.insert_same, hbc, hbc.symm, hck, hbk]

/-- The outcomes of the calls for `(c2, i2)` within any list of calls are those of these
calls made alone, from any state that agrees on the two keys of `(c2, i2)`. -/
theorem mock_interleaving {ε : Type} (config : Config) (i2 c2 : String)
    (h2 : c2 = "ip" ∨ c2 = "token") (calls : List Call) :
    ∀ m m' : MockData, m (counterKey c2 i2) = m' (counterKey c2 i2) →
      m (blockKey c2 i2) = m' (blockKey c2 i2) →
      resultsFor i2 c2 calls (runCalls (MockStorage ε) config m calls).1
        = (runCalls (MockStorage ε) config m'
            (calls.filter (fun call => call.isFor i2 c2))).1 := by
  induction calls with
  | nil => intro m m' _ _; rfl
  | cons call rest ih =>
    intro m m' hck hbk
    by_cases hf : call.isFor i2 c2 = true
    · have hid : call.identifier = i2 ∧ call.limitType = c2 := by
        simpa [Call.isFor] using hf
      have hcg := mock_congr (ε := ε) config call.now m m' i2 c2 hck hbk
      have hfl : (call :: rest).filter (fun call => call.isFor i2 c2)
          = call :: rest.filter (fun call => call.isFor i2 c2) := by
        simp [List.filter, hf]
      have hrs : resultsFor i2 c2 (call :: rest) (runCalls (MockStorage ε) config m
          (call :: rest)).1
          = (CheckLimit (MockStorage ε) config call.now m call.identifier call.limitType).1
            :: resultsFor i2 c2 rest (runCalls (MockStorage ε) config
              (CheckLimit (MockStorage ε) config call.now m call.identifier
                call.limitType).2 rest).1 := by
        simp [runCalls, resultsFor, List.filter, hf]
        rfl
      rw [hfl, hrs, runCalls, hid.1, hid.2, hcg.1]
      congr 1
      exact ih _ _ hcg.2.1 hcg.2.2
    · have hid : ¬ (call.identifier = i2 ∧ call.limitType = c2) := by
        simpa [Call.isFor] using hf
      have hfr := mock_frame (ε := ε) config call.now m call.identifier call.limitType i2 c2
        h2 hid
      have hfl : (call :: rest).filter (fun call => call.isFor i2 c2)
          = rest.filter (fun call => call.isFor i2 c2) := by
        simp [List.filter, hf]
      have hrs : resultsFor i2 c2 (call :: rest) (runCalls (MockStorage ε) config m
          (call :: rest)).1
          = resultsFor i2 c2 rest (runCalls (MockStorage ε) config
              (CheckLimit (MockStorage ε) config call.now m call.identifier
                call.limitType).2 rest).1 := by
        simp [runCalls, resultsFor, List.filter, hf]
        rfl
      rw [hfl, hrs]
      exact ih _ _ (hfr.1.trans hck) (hfr.2.trans hbk)


/-- C6: for two pairs `(c1, i1)` and `(c2, i2)` of a class among "ip" and "token" and an
identifier, different in class or in identifier, a call `CheckLimit(i1, c1)` on the
in-memory store changes neither the counter key nor the block key of `(c2, i2)`; and in
every list of calls (calls for `(c1, i1)`, for `(c2, i2)`, and any others) the outcomes of
the calls for `(c2, i2)`, in order, are exactly the outcomes of these same calls made
alone: `Allowed`, `Limit` and `Remaining` for `(c2, i2)` do not depend on the calls
interleaved with them. -/
theorem distinct_identities_independent {ε : Type} (config : Config)
    (c1 i1 c2 i2 : String) (_h1 : c1 = "ip" ∨ c1 = "token") (h2 : c2 = "ip" ∨ c2 = "token")
    (hne : c1 ≠ c2 ∨ i1 ≠ i2) :
    (∀ (now : Time) (m : MockData),
        (CheckLimit (MockStorage ε) config now m i1 c1).2 (counterKey c2 i2)
            = m (counterKey c2 i2)
          ∧ (CheckLimit (MockStorage ε) config now m i1 c1).2 (blockKey c2 i2)
            = m (blockKey c2 i2))
      ∧ (∀ (m : MockData) (calls : List Call),
          resultsFor i2 c2 calls (runCalls (MockStorage ε) config m calls).1
            = (runCalls (MockStorage ε) config m
                (calls.filter (fun call => call.isFor i2 c2))).1) := by
  constructor
  · intro now m
    exact mock_frame config now m i1 c1 i2 c2 h2 (fun h => by
      rcases hne with hne | hne
      · exact hne h.2
      · exact hne h.1)
  · intro m calls
    exact mock_interleaving config i2 c2 h2 calls m m rfl rfl

/-- The tokens "abc" and "xyz" of the specification. -/
theorem distinct_identities_independent_witness :
    (("token" = "ip" ∨ "token" = "token") ∧ ("token" = "ip" ∨ "token" = "token")
      ∧ ("token" ≠ "token" ∨ "abc" ≠ "xyz")) ∧
    ((∀ (now : Time) (m : MockData),
        (CheckLimit (MockStorage Unit) testConfig now m "abc" "token").2
            (counterKey "token" "xyz") = m (counterKey "token" "xyz")
          ∧ (CheckLimit (MockStorage Unit) testConfig now m "abc" "token").2
            (blockKey "token" "xyz") = m (blockKey "token" "xyz"))
      ∧ (∀ (m : MockData) (calls : List Call),
          resultsFor "xyz" "token" calls (runCalls (MockStorage Unit) testConfig m calls).1
            = (runCalls (MockStorage Unit) testConfig m
                (calls.filter (fun call => call.isFor "xyz" "token"))).1)) :=
  ⟨⟨by decide, by decide, by decide⟩,
    distinct_identities_independent testConfig "token" "abc" "token" "xyz" (by decide)
      (by decide) (by decide)⟩

/-- Two calls for "xyz" with eleven calls for "abc" in between: the second call for "xyz"
is its second allowed call, although "abc" has been blocked meanwhile. -/
theorem interleaved_tokens_example :
    resultsFor "xyz" "token"
        (⟨"xyz", "token", 0⟩ :: List.replicate 11 ⟨"abc", "token", 0⟩ ++ [⟨"xyz", "token", 0⟩])
        (runCalls (MockStorage Unit) testConfig NewMockStorage
          (⟨"xyz", "token", 0⟩ :: List.replicate 11 ⟨"abc", "token", 0⟩
            ++ [⟨"xyz", "token", 0⟩])).1
      = [.ok { Allowed := true, Limit := 10, Remaining := 9, ResetTime := 1000000000 },
         .ok { Allowed := true, Limit := 10, Remaining := 8, ResetTime := 1000000000 }] := by
  decide

/-! ## The fields of a result -/

/-- C8 (as amended): for a recognised class with requests per window `N > 0`, on every
store, each result `CheckLimit` returns without error has `Limit = N`; `Remaining = 0`
whenever `Allowed = false`; and whenever `Allowed = true` the store reported no block, its
`Increment` returned a count `currentCount ≤ N`, and `Remaining` is the `int64` difference
`N - currentCount`, which is the integer `N - currentCount` and is `≥ 0` provided
`currentCount ≥ N - (2^63 - 1)` (in particular for every count `≥ 0`). -/
theorem result_fields {σ ε : Type} (storage : StorageStrategy σ ε) (config : Config)
    (now : Time) (s s' : σ) (i c : String) (N B : Int)
    (hc : limitParams config c = some (N, B)) (_hN : 0 < N) (r : LimitResult)
    (hr : CheckLimit storage config now s i c = (.ok r, s')) :
    r.Limit = N
      ∧ (r.Allowed = false → r.Remaining = 0)
      ∧ (r.Allowed = true → ∃ (s1 s2 : σ) (currentCount : Int),
          storage.Exists s (blockKey c i) = (.ok false, s1)
            ∧ storage.Increment s1 (counterKey c i) Second = (.ok currentCount, s2)
            ∧ currentCount ≤ N
            ∧ r.Remaining = wrap64 (N - currentCount)
            ∧ (N - 9223372036854775807 ≤ currentCount →
                r.Remaining = N - currentCount ∧ 0 ≤ r.Remaining)) := by
  have hrange := (limitParams_some config c N B hc).2.1
  unfold CheckLimit at hr
  rw [hc] at hr
  simp only at hr
  rcases hex : storage.Exists s (blockKey c i) with ⟨_ | b, s1⟩
  · rw [hex] at hr; simp at hr
  · cases b
    · rw [hex] at hr
      simp only at hr
      rcases hin : storage.Increment s1 (counterKey c i) Second with ⟨_ | count, s2⟩
      · rw [hin] at hr; simp at hr
      · rw [hin] at hr
        simp only at hr
        by_cases hgt : count > N
        · rw [if_pos hgt] at hr
          rcases hset : storage.Set s2 (blockKey c i) 1 (blockDurationOf B) with ⟨_ | u, s3⟩
          · rw [hset] at hr; simp at hr
          · rw [hset] at hr
            simp only [Prod.mk.injEq, Except.ok.injEq] at hr
            obtain ⟨rfl, _⟩ := hr
            simp
        · rw [if_neg hgt] at hr
          simp only [Prod.mk.injEq, Except.ok.injEq] at hr
          obtain ⟨rfl, _⟩ := hr
          refine ⟨rfl, by simp, fun _ => ⟨s1, s2, count, rfl, hin, by omega, rfl, ?_⟩⟩
          intro hlo
          have hw : wrap64 (N - count) = N - count :=
            wrap64_of_range _ (by omega) (by omega)
          exact ⟨hw, by show 0 ≤ wrap64 (N - count); rw [hw]; omega⟩
    · rw [hex] at hr
      simp only [Prod.mk.injEq, Except.ok.injEq] at hr
      obtain ⟨rfl, _⟩ := hr
      simp

/-- The first call for an IP on the empty in-memory store, under the configuration of the
unit test. -/
theorem result_fields_witness :
    (limitParams testConfig "ip" = some (5, 60) ∧ (0 : Int) < 5
      ∧ CheckLimit (MockStorage Unit) testConfig 0 NewMockStorage "1.2.3.4" "ip"
        = (.ok { Allowed := true, Limit := 5, Remaining := 4, ResetTime := 1000000000 },
            NewMockStorage.insert (counterKey "ip" "1.2.3.4") 1)) ∧
    ((5 : Int) = 5
      ∧ (true = false → (4 : Int) = 0)
      ∧ (true = true → ∃ (s1 s2 : MockData) (currentCount : Int),
          (MockStorage Unit).Exists NewMockStorage (blockKey "ip" "1.2.3.4") = (.ok false, s1)
            ∧ (MockStorage Unit).Increment s1 (counterKey "ip" "1.2.3.4") Second
                = (.ok currentCount, s2)
            ∧ currentCount ≤ 5
            ∧ (4 : Int) = wrap64 (5 - currentCount)
            ∧ (5 - 9223372036854775807 ≤ currentCount →
                (4 : Int) = 5 - currentCount ∧ (0 : Int) ≤ 4))) :=
  ⟨⟨by decide, by decide, rfl⟩,
    result_fields (MockStorage Unit) testConfig 0 NewMockStorage
      (NewMockStorage.insert (counterKey "ip" "1.2.3.4") 1) "1.2.3.4" "ip" 5 60 (by decide)
      (by decide) { Allowed := true, Limit := 5, Remaining := 4, ResetTime := 1000000000 }
      rfl⟩

/-- C8 as stated fails when the store returns a count far below zero: with the limit 5 and
the counter of the in-memory store at 2^63 - 1, `Increment` returns -2^63, the call is
allowed and `Remaining` is -9223372036854775803, which is negative and is not
`Limit - currentCount`. -/
theorem remaining_negative_on_wrapped_count :
    limitParams testConfig "ip" = some (5, 60)
      ∧ ((MockStorage Unit).Increment
          (NewMockStorage.insert (counterKey "ip" "1.2.3.4") 9223372036854775807)
          (counterKey "ip" "1.2.3.4") Second).1 = .ok (-9223372036854775808)
      ∧ (CheckLimit (MockStorage Unit) testConfig 0
          (NewMockStorage.insert (counterKey "ip" "1.2.3.4") 9223372036854775807)
          "1.2.3.4" "ip").1
        = .ok { Allowed := true, Limit := 5, Remaining := -9223372036854775803,
                ResetTime := 1000000000 }
      ∧ ¬ ((0 : Int) ≤ -9223372036854775803)
      ∧ (-9223372036854775803 : Int) ≠ 5 - (-9223372036854775808) :=
  ⟨by decide, by decide, by decide, by decide, by decide⟩

/-! ## The token header -/

theorem ExtractTokenFromHeader_eq (r : Request) :
    ExtractTokenFromHeader r = TrimSpace (r.HeaderGet "API_KEY") := by
  unfold ExtractTokenFromHeader
  split_ifs with h
  · rfl
  · have h2 : r.HeaderGet "API_KEY" = "" := not_not.mp h
    rw [h2]; rfl

theorem TrimSpace_decompose (s : String) :
    s.data = s.data.takeWhile IsSpace ++ (TrimSpace s).data
      ++ ((s.data.dropWhile IsSpace).reverse.takeWhile IsSpace).reverse := by
  have h1 := (List.takeWhile_append_dropWhile IsSpace s.data).symm
  have h2 := (List.takeWhile_append_dropWhile IsSpace (s.data.dropWhile IsSpace).reverse).symm
  have h3 := congrArg List.reverse h2
  rw [List.reverse_reverse, List.reverse_append] at h3
  unfold TrimSpace
  simp only
  rw [List.append_assoc, ← h3]
  exact h1

theorem TrimSpace_head (s : String) (ch : Char) (h : (TrimSpace s).data.head? = some ch) :
    IsSpace ch = false := by
  have h2 := (List.takeWhile_append_dropWhile IsSpace (s.data.dropWhile IsSpace).reverse).symm
  have h3 := congrArg List.reverse h2
  rw [List.reverse_reverse, List.reverse_append] at h3
  have hd : (s.data.dropWhile IsSpace).head? = some ch := by
    rw [h3]
    unfold TrimSpace at h
    simp only at h
    rw [List.head?_append_of_ne_nil]
    · exact h
    · intro hnil; rw [hnil] at h; simp at h
  have := List.head?_dropWhile_not IsSpace s.data
  rw [hd] at this
  simpa using this

theorem TrimSpace_last (s : String) (ch : Char) (h : (TrimSpace s).data.getLast? = some ch) :
    IsSpace ch = false := by
  unfold TrimSpace at h
  simp only [List.getLast?_reverse] at h
  have := List.head?_dropWhile_not IsSpace (s.data.dropWhile IsSpace).reverse
  rw [h] at this
  simpa using this

theorem TrimSpace_all_space (s : String) (h : ∀ ch ∈ s.data, IsSpace ch = true) :
    TrimSpace s = "" := by
  have : s.data.dropWhile IsSpace = [] := by
    rw [List.dropWhile_eq_nil_iff]; exact h
  unfold TrimSpace
  rw [this]
  rfl

/-- C9: for every request, `ExtractTokenFromHeader` returns the value of the API_KEY
header without its leading and trailing white space: the header value is a run of white
space, then the result, then a run of white space, and the result neither begins nor ends
with a white-space character; it is the empty string when the header is absent or empty
(`Get` returns the empty string) or consists of white space only. The header value
"  test-token-456  " of the unit test gives "test-token-456". -/
theorem ExtractTokenFromHeader_trims :
    (∀ r : Request,
      (∃ leading trailing : List Char,
          (∀ ch ∈ leading, IsSpace ch = true) ∧ (∀ ch ∈ trailing, IsSpace ch = true)
            ∧ (r.HeaderGet "API_KEY").data
                = leading ++ (ExtractTokenFromHeader r).data ++ trailing)
        ∧ (∀ ch : Char, (ExtractTokenFromHeader r).data.head? = some ch → IsSpace ch = false)
        ∧ (∀ ch : Char,
            (ExtractTokenFromHeader r).data.getLast? = some ch → IsSpace ch = false)
        ∧ ((∀ ch ∈ (r.HeaderGet "API_KEY").data, IsSpace ch = true) →
            ExtractTokenFromHeader r = ""))
      ∧ ExtractTokenFromHeader (requestOf [("API_KEY", "  test-token-456  ")] "127.0.0.1:8080")
          = "test-token-456"
      ∧ ExtractTokenFromHeader (requestOf [] "127.0.0.1:8080") = "" := by
  refine ⟨fun r => ?_, by decide, by decide⟩
  rw [ExtractTokenFromHeader_eq]
  refine ⟨⟨_, _, ?_, ?_, TrimSpace_decompose (r.HeaderGet "API_KEY")⟩,
    TrimSpace_head _, TrimSpace_last _, TrimSpace_all_space _⟩
  · intro ch hch
    exact List.mem_takeWhile_imp hch
  · intro ch hch
    exact List.mem_takeWhile_imp (List.mem_reverse.mp hch)

/-! ## The client address -/

theorem splitChars_ne_nil (sep : Char) (l : List Char) : splitChars sep l ≠ [] := by
  cases l with
  | nil => simp [splitChars]
  | cons ch rest =>
    unfold splitChars
    split_ifs
    · simp
    · split <;> simp

theorem splitChars_head (sep : Char) (l : List Char) :
    (splitChars sep l).head? = some (l.takeWhile (fun ch => decide (ch ≠ sep))) := by
  induction l with
  | nil => simp [splitChars]
  | cons ch rest ih =>
    unfold splitChars
    by_cases h : ch = sep
    · simp [h]
    · rw [if_neg h]
      cases hs : splitChars sep rest with
      | nil => exact absurd hs (splitChars_ne_nil sep rest)
      | cons piece pieces =>
        rw [hs] at ih
        simp only [List.head?_cons, Option.some.injEq] at ih
        simp [h, ih]

theorem Split_head (s : String) (sep : Char) :
    (Split s sep).headD "" = ⟨s.data.takeWhile (fun ch => decide (ch ≠ sep))⟩ := by
  unfold Split
  have h := splitChars_head sep s.data
  cases hs : splitChars sep s.data with
  | nil => exact absurd hs (splitChars_ne_nil sep s.data)
  | cons piece pieces =>
    rw [hs] at h
    simp only [List.head?_cons, Option.some.injEq] at h
    simp [h]

theorem takeWhile_ne_spec (sep : Char) (l : List Char) :
    sep ∉ l.takeWhile (fun ch => decide (ch ≠ sep))
      ∧ ∃ rest : List Char, l = l.takeWhile (fun ch => decide (ch ≠ sep)) ++ rest
          ∧ (rest = [] ∨ rest.head? = some sep) := by
  constructor
  · intro hmem
    have := List.mem_takeWhile_imp hmem
    simp at this
  · refine ⟨l.dropWhile (fun ch => decide (ch ≠ sep)),
      (List.takeWhile_append_dropWhile _ l).symm, ?_⟩
    have := List.head?_dropWhile_not (fun ch => decide (ch ≠ sep)) l
    cases hd : (l.dropWhile (fun ch => decide (ch ≠ sep))).head? with
    | none => left; simpa using hd
    | some x =>
      right
      rw [hd] at this
      simp only [ne_eq, decide_not, Bool.not_eq_false', decide_eq_true_eq] at this
      simp [this] at hd ⊢

/-- C10: for every request, `GetClientIP` returns the first comma-separated entry of
X-Forwarded-For (the text before the first comma, a string without any comma) if that
header is non-empty; otherwise the X-Real-IP value if non-empty; otherwise the X-Client-IP
value if non-empty; otherwise `RemoteAddr` unchanged. The lower-precedence values do not
enter the result of a higher-precedence case. -/
theorem GetClientIP_precedence (r : Request) :
    (r.HeaderGet "X-Forwarded-For" ≠ "" →
        GetClientIP r
            = ⟨(r.HeaderGet "X-Forwarded-For").data.takeWhile (fun ch => decide (ch ≠ ','))⟩
          ∧ Split (r.HeaderGet "X-Forwarded-For") ',' ≠ []
          ∧ (Split (r.HeaderGet "X-Forwarded-For") ',').head? = some (GetClientIP r)
          ∧ ',' ∉ (GetClientIP r).data
          ∧ ∃ rest : List Char,
              (r.HeaderGet "X-Forwarded-For").data = (GetClientIP r).data ++ rest
                ∧ (rest = [] ∨ rest.head? = some ','))
      ∧ (r.HeaderGet "X-Forwarded-For" = "" → r.HeaderGet "X-Real-IP" ≠ "" →
          GetClientIP r = r.HeaderGet "X-Real-IP")
      ∧ (r.HeaderGet "X-Forwarded-For" = "" → r.HeaderGet "X-Real-IP" = "" →
          r.HeaderGet "X-Client-IP" ≠ "" → GetClientIP r = r.HeaderGet "X-Client-IP")
      ∧ (r.HeaderGet "X-Forwarded-For" = "" → r.HeaderGet "X-Real-IP" = "" →
          r.HeaderGet "X-Client-IP" = "" → GetClientIP r = r.RemoteAddr) := by
  refine ⟨fun h => ?_, fun h1 h2 => ?_, fun h1 h2 h3 => ?_, fun h1 h2 h3 => ?_⟩
  · have hg : GetClientIP r
        = ⟨(r.HeaderGet "X-Forwarded-For").data.takeWhile (fun ch => decide (ch ≠ ','))⟩ := by
      unfold GetClientIP
      rw [if_pos h, Split_head]
    have hne : Split (r.HeaderGet "X-Forwarded-For") ',' ≠ [] := by
      unfold Split
      simpa using splitChars_ne_nil ',' (r.HeaderGet "X-Forwarded-For").data
    have hhead : (Split (r.HeaderGet "X-Forwarded-For") ',').head? = some (GetClientIP r) := by
      rw [hg]
      unfold Split
      rw [List.head?_map, splitChars_head]
      rfl
    refine ⟨hg, hne, hhead, ?_, ?_⟩
    · rw [hg]
      exact (takeWhile_ne_spec ',' _).1
    · rw [hg]
      exact (takeWhile_ne_spec ',' _).2
  · unfold GetClientIP
    rw [if_neg (not_not.mpr h1), if_pos h2]
  · unfold GetClientIP
    rw [if_neg (not_not.mpr h1), if_neg (not_not.mpr h2), if_pos h3]
  · unfold GetClientIP
    rw [if_neg (not_not.mpr h1), if_neg (not_not.mpr h2), if_neg (not_not.mpr h3)]

/-- The cases of the unit test, and a forwarded-for list whose first entry wins over the
other headers. -/
theorem GetClientIP_examples :
    GetClientIP (requestOf [("X-Forwarded-For", "192.168.1.100")] "127.0.0.1:8080")
        = "192.168.1.100"
      ∧ GetClientIP (requestOf [("X-Real-IP", "10.0.0.1")] "127.0.0.1:8080") = "10.0.0.1"
      ∧ GetClientIP (requestOf [] "192.168.1.50:8080") = "192.168.1.50:8080"
      ∧ GetClientIP (requestOf [("X-Forwarded-For", "203.0.113.7, 10.0.0.1"),
            ("X-Real-IP", "10.0.0.2"), ("X-Client-IP", "10.0.0.3")] "127.0.0.1:8080")
          = "203.0.113.7" := by
  decide

/-! ## Store failures -/

/-- C12 (as amended): for a recognised class, whenever a store operation used by
`CheckLimit` fails, `CheckLimit` returns no result and an error that wraps the store error
under a context naming the operation: "error checking block status" for `Exists` on the
block key, "error incrementing counter" for `Increment` on the counter key, "error setting
block" for `Set` on the block key. The three contexts differ from one another; the
message of the error is the context, ": " and the message of the store error, and the
wrapped error is the store error itself. A failure of `Exists` ends the call: the
existence check is the only store operation made. -/
theorem store_errors_wrapped {σ ε : Type} (storage : StorageStrategy σ ε) (config : Config)
    (now : Time) (s : σ) (i c : String) (N B : Int)
    (hc : limitParams config c = some (N, B)) :
    (∀ (err : ε) (s1 : σ), storage.Exists s (blockKey c i) = (.error err, s1) →
        CheckLimit storage config now s i c
            = (.error (.wrapped "error checking block status" err), s1)
          ∧ ∀ journal : List StoreCall,
              (CheckLimit (journaled storage) config now (s, journal) i c).2
                = (s1, journal ++ [StoreCall.Exists (blockKey c i)]))
      ∧ (∀ (err : ε) (s1 s2 : σ), storage.Exists s (blockKey c i) = (.ok false, s1) →
          storage.Increment s1 (counterKey c i) Second = (.error err, s2) →
          CheckLimit storage config now s i c
            = (.error (.wrapped "error incrementing counter" err), s2))
      ∧ (∀ (err : ε) (currentCount : Int) (s1 s2 s3 : σ),
          storage.Exists s (blockKey c i) = (.ok false, s1) →
          storage.Increment s1 (counterKey c i) Second = (.ok currentCount, s2) →
          currentCount > N →
          storage.Set s2 (blockKey c i) 1 (blockDurationOf B) = (.error err, s3) →
          CheckLimit storage config now s i c
            = (.error (.wrapped "error setting block" err), s3))
      ∧ ("error checking block status" ≠ "error incrementing counter"
          ∧ "error checking block status" ≠ "error setting block"
          ∧ "error incrementing counter" ≠ "error setting block")
      ∧ (∀ (describe : ε → String) (context : String) (err : ε),
          (CheckError.wrapped context err).Error describe = context ++ ": " ++ describe err
            ∧ (CheckError.wrapped context err).Unwrap = some err) := by
  refine ⟨?_, ?_, ?_, ⟨by decide, by decide, by decide⟩, fun _ _ _ => ⟨rfl, rfl⟩⟩
  · intro err s1 hex
    constructor
    · unfold CheckLimit
      rw [hc]
      simp only [hex]
    · intro journal
      unfold CheckLimit
      rw [hc]
      simp only [journaled, hex]
  · intro err s1 s2 hex hin
    unfold CheckLimit
    rw [hc]
    simp only [hex, hin]
  · intro err currentCount s1 s2 s3 hex hin hgt hset
    unfold CheckLimit
    rw [hc]
    simp only [hex, hin, hgt, if_true, hset]

/-- A store that cannot be reached: the existence check fails, and `CheckLimit` returns
its error under the context of the existence check, having made no other call. -/
theorem store_errors_wrapped_witness :
    limitParams testConfig "ip" = some (5, 60)
      ∧ (withFaults (MockStorage String) unreachableStore).Exists NewMockStorage
          (blockKey "ip" "1.2.3.4") = (.error "connection refused", NewMockStorage)
      ∧ CheckLimit (withFaults (MockStorage String) unreachableStore) testConfig 0
          NewMockStorage "1.2.3.4" "ip"
        = (.error (.wrapped "error checking block status" "connection refused"),
            NewMockStorage)
      ∧ ∀ journal : List StoreCall,
          (CheckLimit (journaled (withFaults (MockStorage String) unreachableStore))
            testConfig 0 (NewMockStorage, journal) "1.2.3.4" "ip").2
            = (NewMockStorage, journal ++ [StoreCall.Exists (blockKey "ip" "1.2.3.4")]) :=
  ⟨by decide, rfl,
    (store_errors_wrapped (withFaults (MockStorage String) unreachableStore) testConfig 0
      NewMockStorage "1.2.3.4" "ip" 5 60 (by decide)).1 "connection refused" NewMockStorage
      rfl⟩

/-- C12 as stated fails in what the error identifies: the error does not carry the key.
On a store that cannot be reached, the calls for the IPs "1.2.3.4" and "5.6.7.8" apply
`Exists` to different block keys and return the same error, whose message is
"error checking block status: connection refused". -/
theorem store_error_omits_key :
    blockKey "ip" "1.2.3.4" ≠ blockKey "ip" "5.6.7.8"
      ∧ (CheckLimit (journaled (withFaults (MockStorage String) unreachableStore)) testConfig 0
          (NewMockStorage, []) "1.2.3.4" "ip").2.2 = [StoreCall.Exists "block:ip:1.2.3.4"]
      ∧ (CheckLimit (journaled (withFaults (MockStorage String) unreachableStore)) testConfig 0
          (NewMockStorage, []) "5.6.7.8" "ip").2.2 = [StoreCall.Exists "block:ip:5.6.7.8"]
      ∧ (CheckLimit (withFaults (MockStorage String) unreachableStore) testConfig 0
          NewMockStorage "1.2.3.4" "ip").1
        = .error (.wrapped "error checking block status" "connection refused")
      ∧ (CheckLimit (withFaults (MockStorage String) unreachableStore) testConfig 0
          NewMockStorage "5.6.7.8" "ip").1
        = .error (.wrapped "error checking block status" "connection refused")
      ∧ (CheckError.wrapped "error checking block status" "connection refused").Error id
        = "error checking block status: connection refused" := by
  decide

/-- C14 (as amended): for a recognised class `c` and an identifier `i`, on every store,
if `Exists` reports no block, `Increment` succeeds with a count greater than the requests
per window, and the `Set` of the block key then fails, `CheckLimit` returns the error of
the `Set` and makes no store call after it: the increment is not undone and the store
stays in the state the failed `Set` left. If that state is the one the `Increment` left
(the failed `Set` wrote nothing) and the store still reports no block there, the next
`CheckLimit(i, c)` makes the existence check and then increments the counter again. On
the in-memory store with a `Set` that fails without writing, the counter holds the
incremented value, the block key is absent, and the next call increments the counter
again. -/
theorem failed_block_write_keeps_increment {σ ε : Type} (storage : StorageStrategy σ ε)
    (config : Config) (now : Time) (s s1 s2 s3 : σ) (i c : String) (N B currentCount : Int)
    (err : ε) (hc : limitParams config c = some (N, B))
    (hex : storage.Exists s (blockKey c i) = (.ok false, s1))
    (hin : storage.Increment s1 (counterKey c i) Second = (.ok currentCount, s2))
    (hgt : currentCount > N)
    (hset : storage.Set s2 (blockKey c i) 1 (blockDurationOf B) = (.error err, s3)) :
    CheckLimit storage config now s i c = (.error (.wrapped "error setting block" err), s3)
      ∧ (∀ journal : List StoreCall,
          (CheckLimit (journaled storage) config now (s, journal) i c).2
            = (s3, journal ++ [StoreCall.Exists (blockKey c i),
                StoreCall.Increment (counterKey c i) Second,
                StoreCall.Set (blockKey c i) 1 (blockDurationOf B)]))
      ∧ (s3 = s2 → ∀ (later : Time) (s4 : σ),
          storage.Exists s2 (blockKey c i) = (.ok false, s4) →
          ∀ journal : List StoreCall, ∃ rest : List StoreCall,
            (CheckLimit (journaled storage) config later
              ((CheckLimit storage config now s i c).2, journal) i c).2.2
              = journal ++ [StoreCall.Exists (blockKey c i),
                  StoreCall.Increment (counterKey c i) Second] ++ rest)
      ∧ (∀ (m : MockData) (fault : StoreCall → Option ε) (later : Time),
          fault (StoreCall.Exists (blockKey c i)) = none →
          fault (StoreCall.Increment (counterKey c i) Second) = none →
          fault (StoreCall.Set (blockKey c i) 1 (blockDurationOf B)) = some err →
          m (blockKey c i) = none → wrap64 (m.read (counterKey c i) + 1) > N →
          (CheckLimit (withFaults (MockStorage ε) fault) config now m i c).1
              = .error (.wrapped "error setting block" err)
            ∧ (CheckLimit (withFaults (MockStorage ε) fault) config now m i c).2
                (counterKey c i) = some (wrap64 (m.read (counterKey c i) + 1))
            ∧ (CheckLimit (withFaults (MockStorage ε) fault) config now m i c).2
                (blockKey c i) = none
            ∧ (∃ rest : List StoreCall,
                (CheckLimit (journaled (withFaults (MockStorage ε) fault)) config later
                  ((CheckLimit (withFaults (MockStorage ε) fault) config now m i c).2, [])
                  i c).2.2
                  = [StoreCall.Exists (blockKey c i),
                      StoreCall.Increment (counterKey c i) Second] ++ rest)
            ∧ (CheckLimit (withFaults (MockStorage ε) fault) config later
                  (CheckLimit (withFaults (MockStorage ε) fault) config now m i c).2 i c).2
                (counterKey c i)
                = some (wrap64 (wrap64 (m.read (counterKey c i) + 1) + 1))) := by
  have hmain : CheckLimit storage config now s i c
      = (.error (.wrapped "error setting block" err), s3) := by
    unfold CheckLimit
    rw [hc]
    simp only [hex, hin, hgt, if_true, hset]
  refine ⟨hmain, ?_, ?_, ?_⟩
  · intro journal
    unfold CheckLimit
    rw [hc]
    simp only [journaled, hex, hin, hgt, if_true, hset]
    simp
  · intro h32 later s4 hex2 journal
    rw [hmain]
    subst h32
    unfold CheckLimit
    rw [hc]
    simp only [journaled, hex2]
    rcases hin2 : storage.Increment s4 (counterKey c i) Second with ⟨e2 | count2, s5⟩
    · exact ⟨[], by simp⟩
    · simp only
      by_cases hgt2 : count2 > N
      · rw [if_pos hgt2]
        rcases hset2 : storage.Set s5 (blockKey c i) 1 (blockDurationOf B) with ⟨e3 | u, s6⟩
        · exact ⟨[StoreCall.Set (blockKey c i) 1 (blockDurationOf B)], by simp⟩
        · exact ⟨[StoreCall.Set (blockKey c i) 1 (blockDurationOf B)], by simp⟩
      · rw [if_neg hgt2]
        exact ⟨[], by simp⟩
  · intro m fault later hfe hfi hfs hbk hcount
    have hne : blockKey c i ≠ counterKey c i :=
      fun h => counterKey_ne_blockKey c i c i h.symm
    have hfirst : CheckLimit (withFaults (MockStorage ε) fault) config now m i c
        = (.error (.wrapped "error setting block" err),
            m.insert (counterKey c i) (wrap64 (m.read (counterKey c i) + 1))) := by
      unfold CheckLimit
      rw [hc]
      simp only [withFaults, MockStorage, hfe, hfi, hfs, hbk, Option.isSome_none, hcount,
        if_true]
    have hb2 : (m.insert (counterKey c i) (wrap64 (m.read (counterKey c i) + 1)))
        (blockKey c i) = none := by
      rw [MockData.insert_other _ _ _ _ hne]; exact hbk
    have hrd2 : (m.insert (counterKey c i) (wrap64 (m.read (counterKey c i) + 1))).read
        (counterKey c i) = wrap64 (m.read (counterKey c i) + 1) := by
      simp [MockData.read, MockData.insert_same]
    rw [hfirst]
    refine ⟨rfl, MockData.insert_same _ _ _, hb2, ?_, ?_⟩
    · simp only
      unfold CheckLimit
      rw [hc]
      simp only [journaled, withFaults, MockStorage, hfe, hfi, hfs, hb2, Option.isSome_none,
        hrd2]
      by_cases h2 : wrap64 (wrap64 (m.read (counterKey c i) + 1) + 1) > N
      · exact ⟨[StoreCall.Set (blockKey c i) 1 (blockDurationOf B)], by simp [h2]⟩
      · exact ⟨[], by simp [h2]⟩
    · simp only
      unfold CheckLimit
      rw [hc]
      simp only [withFaults, MockStorage, hfe, hfi, hfs, hb2, Option.isSome_none, hrd2]
      by_cases h2 : wrap64 (wrap64 (m.read (counterKey c i) + 1) + 1) > N
      · simp [h2, MockData.insert_same]
      · simp [h2, MockData.insert_same]

/-- The in-memory store on which `Set` fails without writing, under the configuration of
the tests: the sixth call for an IP. The counter goes from 5 to 6, the call fails, the
block key stays absent, and the next call increments again. -/
theorem failed_block_write_keeps_increment_witness :
    (limitParams testConfig "ip" = some (5, 60)
      ∧ (withFaults (MockStorage String) readOnlyStore).Exists
          (NewMockStorage.insert (counterKey "ip" "1.2.3.4") 5) (blockKey "ip" "1.2.3.4")
        = (.ok false, NewMockStorage.insert (counterKey "ip" "1.2.3.4") 5)
      ∧ (withFaults (MockStorage String) readOnlyStore).Increment
          (NewMockStorage.insert (counterKey "ip" "1.2.3.4") 5) (counterKey "ip" "1.2.3.4")
          Second
        = (.ok 6, (NewMockStorage.insert (counterKey "ip" "1.2.3.4") 5).insert
            (counterKey "ip" "1.2.3.4") 6)
      ∧ (6 : Int) > 5
      ∧ (withFaults (MockStorage String) readOnlyStore).Set
          ((NewMockStorage.insert (counterKey "ip" "1.2.3.4") 5).insert
            (counterKey "ip" "1.2.3.4") 6) (blockKey "ip" "1.2.3.4") 1 (blockDurationOf 60)
        = (.error "READONLY", (NewMockStorage.insert (counterKey "ip" "1.2.3.4") 5).insert
            (counterKey "ip" "1.2.3.4") 6))
    ∧ CheckLimit (withFaults (MockStorage String) readOnlyStore) testConfig 0
        (NewMockStorage.insert (counterKey "ip" "1.2.3.4") 5) "1.2.3.4" "ip"
      = (.error (.wrapped "error setting block" "READONLY"),
          (NewMockStorage.insert (counterKey "ip" "1.2.3.4") 5).insert
            (counterKey "ip" "1.2.3.4") 6)
    ∧ ((NewMockStorage.insert (counterKey "ip" "1.2.3.4") 5).insert
        (counterKey "ip" "1.2.3.4") 6) (counterKey "ip" "1.2.3.4") = some 6
    ∧ ((NewMockStorage.insert (counterKey "ip" "1.2.3.4") 5).insert
        (counterKey "ip" "1.2.3.4") 6) (blockKey "ip" "1.2.3.4") = none
    ∧ ∃ rest : List StoreCall,
        (CheckLimit (journaled (withFaults (MockStorage String) readOnlyStore)) testConfig 1
          ((CheckLimit (withFaults (MockStorage String) readOnlyStore) testConfig 0
            (NewMockStorage.insert (counterKey "ip" "1.2.3.4") 5) "1.2.3.4" "ip").2, [])
          "1.2.3.4" "ip").2.2
          = [] ++ [StoreCall.Exists (blockKey "ip" "1.2.3.4"),
              StoreCall.Increment (counterKey "ip" "1.2.3.4") Second] ++ rest :=
  have h := failed_block_write_keeps_increment
    (withFaults (MockStorage String) readOnlyStore) testConfig 0
    (NewMockStorage.insert (counterKey "ip" "1.2.3.4") 5)
    (NewMockStorage.insert (counterKey "ip" "1.2.3.4") 5)
    ((NewMockStorage.insert (counterKey "ip" "1.2.3.4") 5).insert
      (counterKey "ip" "1.2.3.4") 6)
    ((NewMockStorage.insert (counterKey "ip" "1.2.3.4") 5).insert
      (counterKey "ip" "1.2.3.4") 6)
    "1.2.3.4" "ip" 5 60 6 "READONLY" (by decide) rfl rfl (by decide) rfl
  ⟨⟨by decide, rfl, rfl, by decide, rfl⟩, h.1, by decide, by decide,
    h.2.2.1 rfl 1 ((NewMockStorage.insert (counterKey "ip" "1.2.3.4") 5).insert
      (counterKey "ip" "1.2.3.4") 6) rfl []⟩

/-- C14 as stated fails on a store whose failed `Set` has written: on the in-memory store
whose reply to `Set` times out after the write, with the limit 5 and the counter at 5,
`Exists` reports no block, `Increment` returns 6 and the `Set` fails, so `CheckLimit`
returns an error; but the block key has been written, and the next call is a denial
whose only store operation is the existence check: the counter is not incremented again. -/
theorem failed_block_write_may_block :
    limitParams testConfig "ip" = some (5, 60)
      ∧ ((withLostReplies (MockStorage String) setTimesOut).Exists
          (NewMockStorage.insert (counterKey "ip" "1.2.3.4") 5) (blockKey "ip" "1.2.3.4")).1
        = .ok false
      ∧ ((withLostReplies (MockStorage String) setTimesOut).Increment
          (NewMockStorage.insert (counterKey "ip" "1.2.3.4") 5) (counterKey "ip" "1.2.3.4")
          Second).1 = .ok 6
      ∧ ((withLostReplies (MockStorage String) setTimesOut).Set
          ((NewMockStorage.insert (counterKey "ip" "1.2.3.4") 5).insert
            (counterKey "ip" "1.2.3.4") 6) (blockKey "ip" "1.2.3.4") 1
          (blockDurationOf 60)).1 = .error "i/o timeout"
      ∧ (CheckLimit (withLostReplies (MockStorage String) setTimesOut) testConfig 0
          (NewMockStorage.insert (counterKey "ip" "1.2.3.4") 5) "1.2.3.4" "ip").1
        = .error (.wrapped "error setting block" "i/o timeout")
      ∧ (CheckLimit (withLostReplies (MockStorage String) setTimesOut) testConfig 0
          (NewMockStorage.insert (counterKey "ip" "1.2.3.4") 5) "1.2.3.4" "ip").2
          (blockKey "ip" "1.2.3.4") = some 1
      ∧ (CheckLimit (journaled (withLostReplies (MockStorage String) setTimesOut)) testConfig 1
          ((CheckLimit (withLostReplies (MockStorage String) setTimesOut) testConfig 0
            (NewMockStorage.insert (counterKey "ip" "1.2.3.4") 5) "1.2.3.4" "ip").2, [])
          "1.2.3.4" "ip").1
        = .ok { Allowed := false, Limit := 5, Remaining := 0, ResetTime := 60000000001 }
      ∧ (CheckLimit (journaled (withLostReplies (MockStorage String) setTimesOut)) testConfig 1
          ((CheckLimit (withLostReplies (MockStorage String) setTimesOut) testConfig 0
            (NewMockStorage.insert (counterKey "ip" "1.2.3.4") 5) "1.2.3.4" "ip").2, [])
          "1.2.3.4" "ip").2.2 = [StoreCall.Exists "block:ip:1.2.3.4"]
      ∧ (CheckLimit (withLostReplies (MockStorage String) setTimesOut) testConfig 1
          (CheckLimit (withLostReplies (MockStorage String) setTimesOut) testConfig 0
            (NewMockStorage.insert (counterKey "ip" "1.2.3.4") 5) "1.2.3.4" "ip").2
          "1.2.3.4" "ip").2 (counterKey "ip" "1.2.3.4") = some 6 := by
  decide

/-- Seven calls for one IP on the in-memory store on which `Set` fails: five are allowed,
the sixth and the seventh fail, and the journal shows that the seventh increments the
counter again. -/
theorem failed_block_write_example :
    (callNo (withFaults (MockStorage String) readOnlyStore) testConfig (fun _ => 0)
        NewMockStorage "1.2.3.4" "ip" 6).1
        = .error (.wrapped "error setting block" "READONLY")
      ∧ (callNo (withFaults (MockStorage String) readOnlyStore) testConfig (fun _ => 0)
        NewMockStorage "1.2.3.4" "ip" 6).2 (counterKey "ip" "1.2.3.4") = some 6
      ∧ (callNo (withFaults (MockStorage String) readOnlyStore) testConfig (fun _ => 0)
        NewMockStorage "1.2.3.4" "ip" 6).2 (blockKey "ip" "1.2.3.4") = none
      ∧ (CheckLimit (journaled (withFaults (MockStorage String) readOnlyStore)) testConfig 0
          (stateAfter (withFaults (MockStorage String) readOnlyStore) testConfig (fun _ => 0)
            NewMockStorage "1.2.3.4" "ip" 6, []) "1.2.3.4" "ip").2.2
        = [StoreCall.Exists "block:ip:1.2.3.4",
            StoreCall.Increment "rate_limit:ip:1.2.3.4" 1000000000,
            StoreCall.Set "block:ip:1.2.3.4" 1 60000000000]
      ∧ (callNo (withFaults (MockStorage String) readOnlyStore) testConfig (fun _ => 0)
        NewMockStorage "1.2.3.4" "ip" 7).2 (counterKey "ip" "1.2.3.4") = some 7 := by
  decide

/-! ## The middleware -/

/-- C11: for every request the middleware handles, with any rate limiter: if
`ExtractTokenFromHeader` returns a non-empty token, the calls of `CheckLimit` the
middleware makes are exactly one, with that token and the class "token" (so none with the
class "ip", whatever the IP headers and `RemoteAddr` are); if it returns the empty string,
they are exactly one, with the result of `GetClientIP` and the class "ip". The state the
middleware leaves is the state that one call leaves. -/
theorem middleware_checks_once {τ ε : Type}
    (checkLimit : τ → String → String → Except ε LimitResult × τ) (format : Time → String)
    (t : τ) (calls : List (String × String)) (c : Context) :
    (ExtractTokenFromHeader c.Request ≠ "" →
        (RateLimiterMiddleware (recording checkLimit) format (t, calls) c).2
          = ((checkLimit t (ExtractTokenFromHeader c.Request) "token").2,
              calls ++ [(ExtractTokenFromHeader c.Request, "token")]))
      ∧ (ExtractTokenFromHeader c.Request = "" →
        (RateLimiterMiddleware (recording checkLimit) format (t, calls) c).2
          = ((checkLimit t (GetClientIP c.Request) "ip").2,
              calls ++ [(GetClientIP c.Request, "ip")])) := by
  constructor
  · intro h
    unfold RateLimiterMiddleware
    simp only [h, ne_eq, not_false_eq_true, if_true]
    rcases hr : checkLimit t (ExtractTokenFromHeader c.Request) "token" with ⟨_ | result, t1⟩
    · simp [recording, hr]
    · cases hA : result.Allowed <;> simp [recording, hr, hA]
  · intro h
    unfold RateLimiterMiddleware
    simp only [h, ne_eq, not_true_eq_false, if_false]
    rcases hr : checkLimit t (GetClientIP c.Request) "ip" with ⟨_ | result, t1⟩
    · simp [recording, hr]
    · cases hA : result.Allowed <;> simp [recording, hr, hA]

/-- A request with a token and with forwarding headers is checked once, as a token; the
same request without the token is checked once, by the first forwarded address. -/
theorem middleware_checks_once_examples :
    (RateLimiterMiddleware (recording (CheckLimit (MockStorage Unit) testConfig 0))
        (fun _ => "") (NewMockStorage, [])
        (Context.new (requestOf [("API_KEY", " abc123 "), ("X-Forwarded-For", "203.0.113.7"),
          ("X-Real-IP", "10.0.0.2")] "127.0.0.1:8080"))).2.2 = [("abc123", "token")]
      ∧ (RateLimiterMiddleware (recording (CheckLimit (MockStorage Unit) testConfig 0))
        (fun _ => "") (NewMockStorage, [])
        (Context.new (requestOf [("X-Forwarded-For", "203.0.113.7, 10.0.0.1"),
          ("X-Real-IP", "10.0.0.2")] "127.0.0.1:8080"))).2.2 = [("203.0.113.7", "ip")] := by
  decide

/-- C16 does not hold of the code: the middleware writes `string(rune(result.Limit))` and
`string(rune(result.Remaining))`, the characters with these code points. For a blocked IP
under the configuration of the tests (`Limit = 5`, `Remaining = 0`) the two headers hold
the characters U+0005 and U+0000, not "5" and "0"; for the first request of a token
(`Limit = 10`, `Remaining = 9`) they hold a line feed and a tab, not "10" and "9". -/
theorem rate_limit_headers_are_code_points :
    ((RateLimiterMiddleware (CheckLimit (MockStorage Unit) testConfig 0) (fun _ => "reset")
        (NewMockStorage.insert (blockKey "ip" "1.2.3.4") 1)
        (Context.new (requestOf [] "1.2.3.4"))).1.Headers
        = [("X-RateLimit-Limit", String.singleton (Char.ofNat 5)),
            ("X-RateLimit-Remaining", String.singleton (Char.ofNat 0)),
            ("X-RateLimit-Reset", "reset")]
      ∧ (CheckLimit (MockStorage Unit) testConfig 0
          (NewMockStorage.insert (blockKey "ip" "1.2.3.4") 1) "1.2.3.4" "ip").1
        = .ok { Allowed := false, Limit := 5, Remaining := 0, ResetTime := 60000000000 }
      ∧ formatInt 5 = "5" ∧ formatInt 0 = "0"
      ∧ String.singleton (Char.ofNat 5) ≠ "5" ∧ String.singleton (Char.ofNat 0) ≠ "0")
    ∧ ((RateLimiterMiddleware (CheckLimit (MockStorage Unit) testConfig 0) (fun _ => "reset")
        NewMockStorage (Context.new (requestOf [("API_KEY", "abc123")] "1.2.3.4"))).1.Headers
        = [("X-RateLimit-Limit", String.singleton (Char.ofNat 10)),
            ("X-RateLimit-Remaining", String.singleton (Char.ofNat 9)),
            ("X-RateLimit-Reset", "reset")]
      ∧ (CheckLimit (MockStorage Unit) testConfig 0 NewMockStorage "abc123" "token").1
        = .ok { Allowed := true, Limit := 10, Remaining := 9, ResetTime := 1000000000 }
      ∧ formatInt 10 = "10" ∧ formatInt 9 = "9"
      ∧ String.singleton (Char.ofNat 10) ≠ "10" ∧ String.singleton (Char.ofNat 9) ≠ "9") := by
  decide

/-! ## The header values of the middleware -/

theorem toDigitsCore_length_ge (b : Nat) : ∀ (f m : Nat) (ds : List Char),
    ds.length ≤ (Nat.toDigitsCore b f m ds).length := by
  intro f
  induction f with
  | zero => intro m ds; simp [Nat.toDigitsCore]
  | succ f ih =>
    intro m ds
    simp only [Nat.toDigitsCore]
    split_ifs
    · simp
    · exact le_trans (by simp) (ih _ _)

theorem repr_data_ne_nil (n : Nat) : (Nat.repr n).data ≠ [] := by
  intro h
  have h1 : (Nat.toDigits 10 n).length = 0 := by
    have : (Nat.repr n).data = Nat.toDigits 10 n := rfl
    rw [← this, h]; rfl
  unfold Nat.toDigits at h1
  simp only [Nat.toDigitsCore] at h1
  split_ifs at h1
  · simp at h1
  · have := toDigitsCore_length_ge 10 n (n / 10) [Nat.digitChar (n % 10)]
    simp at this
    omega

theorem repr_data_of_ge (n : Nat) (h : 10 ≤ n) : 2 ≤ (Nat.repr n).data.length := by
  have h0 : (Nat.repr n).data = Nat.toDigits 10 n := rfl
  rw [h0]
  unfold Nat.toDigits
  obtain ⟨f, rfl⟩ : ∃ f, n = f + 1 := ⟨n - 1, by omega⟩
  simp only [Nat.toDigitsCore]
  rw [if_neg (by omega)]
  obtain ⟨g, rfl⟩ : ∃ g, f = g + 1 := ⟨f - 1, by omega⟩
  simp only [Nat.toDigitsCore]
  split_ifs
  · simp
  · simp
  · refine le_trans ?_ (toDigitsCore_length_ge 10 _ _ _)
    simp

theorem repr_data_of_lt (n : Nat) (h : n < 10) : (Nat.repr n).data = [Nat.digitChar n] := by
  interval_cases n <;> rfl

theorem runeToString_data (x : Int) : ∃ ch : Char, (runeToString x).data = [ch] := by
  unfold runeToString
  split_ifs
  · exact ⟨_, rfl⟩
  · exact ⟨_, rfl⟩

/-- The string `string(rune(x))` is never the decimal representation of `x`. -/
theorem runeToString_ne_formatInt (x : Int) : runeToString x ≠ formatInt x := by
  intro heq
  obtain ⟨ch, hch⟩ := runeToString_data x
  have hd : (formatInt x).data = [ch] := by rw [← heq]; exact hch
  unfold formatInt at hd
  by_cases hneg : x < 0
  · rw [if_pos hneg] at hd
    rw [String.data_append] at hd
    have h1 : ("-" : String).data = ['-'] := rfl
    rw [h1] at hd
    simp only [List.singleton_append, List.cons.injEq] at hd
    exact repr_data_ne_nil x.natAbs hd.2
  · rw [if_neg hneg] at hd
    by_cases hlt : x.natAbs < 10
    · have hx : x = (x.natAbs : Int) := by omega
      have hr : runeToString x = String.singleton (Char.ofNat x.natAbs) := by
        rw [hx]
        generalize x.natAbs = n at hlt
        interval_cases n <;> rfl
      rw [repr_data_of_lt _ hlt] at hd
      rw [hr] at hch
      have : Char.ofNat x.natAbs = Nat.digitChar x.natAbs := by
        have h2 : [Char.ofNat x.natAbs] = [ch] := hch
        rw [← hd] at h2
        simpa using h2
      generalize x.natAbs = n at hlt this
      interval_cases n <;> revert this <;> decide
    · have := repr_data_of_ge x.natAbs (by omega)
      rw [hd] at this
      simp at this

/-- On both paths and for every result `CheckLimit` returns, allowed or denied, the
response headers after the middleware are those set from `string(rune(result.Limit))`,
`string(rune(result.Remaining))` and the formatted reset time. -/
theorem middleware_sets_code_point_headers {τ ε : Type}
    (checkLimit : τ → String → String → Except ε LimitResult × τ) (format : Time → String)
    (t t1 : τ) (c : Context) (result : LimitResult) :
    (ExtractTokenFromHeader c.Request ≠ "" →
        checkLimit t (ExtractTokenFromHeader c.Request) "token" = (.ok result, t1) →
        (RateLimiterMiddleware checkLimit format t c).1.Headers
          = (((c.Header "X-RateLimit-Limit" (runeToString result.Limit)).Header
              "X-RateLimit-Remaining" (runeToString result.Remaining)).Header
              "X-RateLimit-Reset" (format result.ResetTime)).Headers)
      ∧ (ExtractTokenFromHeader c.Request = "" →
        checkLimit t (GetClientIP c.Request) "ip" = (.ok result, t1) →
        (RateLimiterMiddleware checkLimit format t c).1.Headers
          = (((c.Header "X-RateLimit-Limit" (runeToString result.Limit)).Header
              "X-RateLimit-Remaining" (runeToString result.Remaining)).Header
              "X-RateLimit-Reset" (format result.ResetTime)).Headers) := by
  constructor
  · intro h hr
    unfold RateLimiterMiddleware
    simp only [h, ne_eq, not_false_eq_true, if_true, hr]
    cases hA : result.Allowed <;> simp [Context.JSON, Context.Abort, Context.Next]
  · intro h hr
    unfold RateLimiterMiddleware
    simp only [h, ne_eq, not_true_eq_false, if_false, hr]
    cases hA : result.Allowed <;> simp [Context.JSON, Context.Abort, Context.Next]

/-! ## The block key and the last decision -/

theorem resultsFor_cons {α : Type} (i c : String) (call : Call) (rest : List Call) (r : α)
    (rs : List α) :
    resultsFor i c (call :: rest) (r :: rs)
      = if call.isFor i c = true then r :: resultsFor i c rest rs
        else resultsFor i c rest rs := by
  unfold resultsFor
  rw [List.zip_cons_cons, List.filter_cons]
  split_ifs <;> rfl

theorem limitParams_of_class (config : Config) (c : String) (hcv : c = "ip" ∨ c = "token") :
    ∃ N B : Int, limitParams config c = some (N, B) := by
  rcases hcv with rfl | rfl
  · exact ⟨_, _, limitParams_ip config⟩
  · exact ⟨_, _, limitParams_token config⟩

/-- A call for `(c, i)` on the in-memory store that leaves the block key of `(c, i)`
present has returned a denial. -/
theorem mock_block_after_call {ε : Type} (config : Config) (now : Time) (m : MockData)
    (i c : String) (hcv : c = "ip" ∨ c = "token")
    (h : ((CheckLimit (MockStorage ε) config now m i c).2 (blockKey c i)).isSome = true) :
    ∃ r : LimitResult, (CheckLimit (MockStorage ε) config now m i c).1 = .ok r
      ∧ r.Allowed = false := by
  obtain ⟨N, B, hp⟩ := limitParams_of_class config c hcv
  have hne : blockKey c i ≠ counterKey c i := fun h => counterKey_ne_blockKey c i c i h.symm
  rw [CheckLimit_mock config now m i c N B hp] at h ⊢
  by_cases hb : (m (blockKey c i)).isSome = true
  · rw [if_pos hb]; exact ⟨_, rfl, rfl⟩
  · rw [if_neg hb] at h ⊢
    by_cases hg : wrap64 (m.read (counterKey c i) + 1) > N
    · rw [if_pos hg]; exact ⟨_, rfl, rfl⟩
    · rw [if_neg hg] at h
      simp only at h
      rw [MockData.insert_other _ _ _ _ hne] at h
      exact absurd h hb

/-- The invariant behind C13, from any starting state of the in-memory store: if the
block key of `(c, i)` is present after the calls, then either the last outcome of a call
for `(c, i)` is a denial, or there was no call for `(c, i)` and the key was present at the
start. -/
theorem mock_block_invariant {ε : Type} (config : Config) (i c : String)
    (hcv : c = "ip" ∨ c = "token") (calls : List Call) :
    ∀ m : MockData,
      ((runCalls (MockStorage ε) config m calls).2 (blockKey c i)).isSome = true →
      (∃ r : LimitResult,
          (resultsFor i c calls (runCalls (MockStorage ε) config m calls).1).getLast?
              = some (.ok r) ∧ r.Allowed = false)
        ∨ (resultsFor i c calls (runCalls (MockStorage ε) config m calls).1 = []
            ∧ (m (blockKey c i)).isSome = true) := by
  induction calls with
  | nil =>
    intro m h
    exact Or.inr ⟨rfl, h⟩
  | cons call rest ih =>
    intro m h
    rw [runCalls] at h ⊢
    simp only at h ⊢
    rw [resultsFor_cons]
    by_cases hf : call.isFor i c = true
    · have hid : call.identifier = i ∧ call.limitType = c := by
        simpa [Call.isFor] using hf
      rw [if_pos hf]
      left
      rcases ih _ h with ⟨r, hr, hA⟩ | ⟨hnil, hpres⟩
      · refine ⟨r, ?_, hA⟩
        rw [List.getLast?_cons, hr]
        rfl
      · rw [hnil]
        rw [hid.1, hid.2] at hpres ⊢
        obtain ⟨r, hr, hA⟩ := mock_block_after_call config call.now m i c hcv hpres
        exact ⟨r, by rw [hr]; rfl, hA⟩
    · have hid : ¬ (call.identifier = i ∧ call.limitType = c) := by
        simpa [Call.isFor] using hf
      rw [if_neg hf]
      rcases ih _ h with hA | ⟨hnil, hpres⟩
      · exact Or.inl hA
      · refine Or.inr ⟨hnil, ?_⟩
        rw [(mock_frame config call.now m call.identifier call.limitType i c hcv
          hid).2] at hpres
        exact hpres

/-- C13: in every state of the in-memory store reached from the empty store by a finite
sequence of `CheckLimit` calls (any identifiers, any limit types, any configuration), if
the block key of `(c, i)`, `c` one of the classes "ip" and "token", is present, then a
call `CheckLimit(i, c)` has returned a result, and the most recent outcome of a call for
`(c, i)` is a result with `Allowed = false`. -/
theorem block_key_implies_last_denied {ε : Type} (config : Config) (calls : List Call)
    (i c : String) (hcv : c = "ip" ∨ c = "token")
    (hpresent : ((runCalls (MockStorage ε) config NewMockStorage calls).2
      (blockKey c i)).isSome = true) :
    ∃ r : LimitResult,
      (resultsFor i c calls (runCalls (MockStorage ε) config NewMockStorage calls).1).getLast?
          = some (.ok r)
        ∧ r.Allowed = false := by
  rcases mock_block_invariant config i c hcv calls NewMockStorage hpresent with h | ⟨_, h⟩
  · exact h
  · simp [NewMockStorage] at h

/-- Six calls for an IP under the configuration of the tests, with calls for a token in
between: the block key of the IP is present and the last outcome for the IP is a denial. -/
theorem block_key_implies_last_denied_witness :
    (("ip" = "ip" ∨ "ip" = "token")
      ∧ ((runCalls (MockStorage Unit) testConfig NewMockStorage
          (List.replicate 6 ⟨"1.2.3.4", "ip", 0⟩ ++ [⟨"abc", "token", 0⟩])).2
            (blockKey "ip" "1.2.3.4")).isSome = true) ∧
    ∃ r : LimitResult,
      (resultsFor "1.2.3.4" "ip" (List.replicate 6 ⟨"1.2.3.4", "ip", 0⟩ ++ [⟨"abc", "token", 0⟩])
          (runCalls (MockStorage Unit) testConfig NewMockStorage
            (List.replicate 6 ⟨"1.2.3.4", "ip", 0⟩ ++ [⟨"abc", "token", 0⟩])).1).getLast?
          = some (.ok r)
        ∧ r.Allowed = false :=
  ⟨⟨by decide, by decide⟩,
    block_key_implies_last_denied testConfig
      (List.replicate 6 ⟨"1.2.3.4", "ip", 0⟩ ++ [⟨"abc", "token", 0⟩]) "1.2.3.4" "ip"
      (by decide) (by decide)⟩

/-! ## The Redis store: the expiry is refreshed by every increment -/

theorem RedisState.put_put (s : RedisState) (key : String) (a b : Int × Option Time) :
    (s.put key a).put key b = s.put key b := by
  unfold RedisState.put
  congr 1
  funext k
  by_cases h : k = key <;> simp [h]

theorem RedisState.live_put_same (s : RedisState) (key : String) (value : Int) (t : Time)
    (h : s.now < t) : (s.put key (value, some t)).live key = some (value, some t) := by
  simp [RedisState.live, RedisState.put, h]

theorem RedisState.live_put_persistent (s : RedisState) (key : String) (value : Int) :
    (s.put key (value, none)).live key = some (value, none) := by
  simp [RedisState.live, RedisState.put]

theorem RedisState.live_put_other (s : RedisState) (key k : String) (entry : Int × Option Time)
    (h : k ≠ key) : (s.put key entry).live k = s.live k := by
  simp [RedisState.live, RedisState.put, h]

theorem RedisState.live_of_data_none (s : RedisState) (key : String) (h : s.data key = none) :
    s.live key = none := by
  simp [RedisState.live, h]

theorem RedisState.live_put_entry (s : RedisState) (key : String) (value value' : Int)
    (expiry : Option Time) (h : s.live key = some (value, expiry)) :
    (s.put key (value', expiry)).live key = some (value', expiry) := by
  cases expiry with
  | none => exact RedisState.live_put_persistent s key value'
  | some t =>
    apply RedisState.live_put_same
    unfold RedisState.live at h
    split at h
    · split_ifs at h with hlt
      simp only [Option.some.injEq, Prod.mk.injEq] at h
      rw [← h.2]; exact hlt
    · simp at h
    · simp at h

/-- What `Increment` does on the Redis store when it succeeds, for a positive expiration:
whatever was at the key, the key now holds the count and expires `formatSec expiration`
seconds from now. -/
theorem RedisStorage_Increment_ok (s : RedisState) (key : String) (expiration : Duration)
    (count : Int) (hpos : 0 < expiration)
    (hok : (RedisStorage.Increment s key expiration).1 = .ok count) :
    (RedisStorage.Increment s key expiration).2
        = s.put key (count, some (Time.Add s.now (formatSec expiration * Second)))
      ∧ count = ((s.live key).map Prod.fst).getD 0 + 1 := by
  have hsec : ¬ formatSec expiration ≤ 0 := by
    have hpos2 : (0 : Int) < expiration := hpos
    unfold formatSec Second
    split_ifs with h
    · omega
    · have h2 : (1000000000 : Int) ≤ expiration := by
        by_contra hlt
        exact h ⟨hpos, not_le.mp hlt⟩
      have h3 : Int.tdiv expiration 1000000000 = (expiration : Int) / 1000000000 :=
        Int.tdiv_eq_ediv (by omega) (by omega)
      rw [h3]
      omega
  simp only [RedisStorage] at hok ⊢
  unfold redisINCR at hok ⊢
  cases hl : s.live key with
  | none =>
    rw [hl] at hok
    simp only [Except.ok.injEq] at hok
    subst hok
    simp only [redisEXPIRE, RedisState.live_put_persistent, hsec, if_false,
      RedisState.put_put]
    exact ⟨rfl, by simp⟩
  | some entry =>
    obtain ⟨value, expiry⟩ := entry
    rw [hl] at hok
    simp only at hok ⊢
    by_cases hmax : value = 9223372036854775807
    · rw [if_pos hmax] at hok; simp at hok
    · rw [if_neg hmax] at hok ⊢
      simp only [Except.ok.injEq] at hok
      subst hok
      simp only [redisEXPIRE, RedisState.live_put_entry s key value (value + 1) expiry hl, hsec,
        if_false, RedisState.put_put]
      exact ⟨rfl, by simp⟩
theorem formatSec_Second : formatSec Second = 1 := by decide

/-- The reply of `Increment` on the Redis store: the count after the one seen at the key
(0 for an absent or expired key), or the overflow error at the largest 64-bit integer. -/
theorem RedisStorage_Increment_fst (s : RedisState) (key : String) (expiration : Duration) :
    (RedisStorage.Increment s key expiration).1
      = if ((s.live key).map Prod.fst).getD 0 = 9223372036854775807 then .error redisOverflow
        else .ok (((s.live key).map Prod.fst).getD 0 + 1) := by
  simp only [RedisStorage]
  unfold redisINCR
  cases hl : s.live key with
  | none => simp
  | some entry =>
    obtain ⟨value, expiry⟩ := entry
    simp only [Option.map_some', Option.getD_some]
    split_ifs <;> rfl

/-- What `CheckLimit` does on the Redis store for a recognised class, when the block key
is absent and the counter seen at the counter key (0 when absent or expired) is `cur`,
not the largest 64-bit integer. -/
theorem CheckLimit_redis (config : Config) (now : Time) (s : RedisState) (i c : String)
    (N B cur : Int) (hc : limitParams config c = some (N, B))
    (hbk : s.data (blockKey c i) = none)
    (hcur : ((s.live (counterKey c i)).map Prod.fst).getD 0 = cur)
    (hmax : cur ≠ 9223372036854775807) :
    CheckLimit RedisStorage config now s i c =
      if cur + 1 > N then
        (.ok { Allowed := false, Limit := N, Remaining := 0,
               ResetTime := Time.Add now (blockDurationOf B) },
          (s.put (counterKey c i) (cur + 1, some (s.now + Second))).put (blockKey c i)
            (1, redisSetExpiry (s.put (counterKey c i) (cur + 1, some (s.now + Second)))
              (blockKey c i) (blockDurationOf B)))
      else
        (.ok { Allowed := true, Limit := N, Remaining := wrap64 (N - (cur + 1)),
               ResetTime := Time.Add now Second },
          s.put (counterKey c i) (cur + 1, some (s.now + Second))) := by
  have hfst := RedisStorage_Increment_fst s (counterKey c i) Second
  rw [hcur, if_neg hmax] at hfst
  have hsnd := (RedisStorage_Increment_ok s (counterKey c i) Second (cur + 1) (by decide)
    hfst).1
  rw [formatSec_Second] at hsnd
  have hinc : RedisStorage.Increment s (counterKey c i) Second
      = (.ok (cur + 1), s.put (counterKey c i) (cur + 1, some (s.now + Second))) := by
    have hadd : Time.Add s.now (1 * Second) = s.now + Second := by simp [Time.Add]
    rw [hadd] at hsnd
    rw [← hfst, ← hsnd]
  have hex : RedisStorage.Exists s (blockKey c i) = (.ok false, s) := by
    simp [RedisStorage, RedisState.live_of_data_none s _ hbk]
  unfold CheckLimit
  rw [hc]
  simp only [hex, hinc]
  split_ifs <;> rfl

/-- At the largest 64-bit integer the increment fails, and so does `CheckLimit`. -/
theorem CheckLimit_redis_overflow (config : Config) (now : Time) (s : RedisState)
    (i c : String) (N B : Int) (hc : limitParams config c = some (N, B))
    (hbk : s.data (blockKey c i) = none)
    (hcur : ((s.live (counterKey c i)).map Prod.fst).getD 0 = 9223372036854775807) :
    (CheckLimit RedisStorage config now s i c).1
      = .error (.wrapped "error incrementing counter" redisOverflow) := by
  have hfst := RedisStorage_Increment_fst s (counterKey c i) Second
  rw [hcur, if_pos rfl] at hfst
  have hex : RedisStorage.Exists s (blockKey c i) = (.ok false, s) := by
    simp [RedisStorage, RedisState.live_of_data_none s _ hbk]
  unfold CheckLimit
  rw [hc]
  simp only [hex]
  rcases hinc : RedisStorage.Increment s (counterKey c i) Second with ⟨r, s2⟩
  rw [hinc] at hfst
  simp only at hfst
  subst hfst
  rfl

/-- The Redis store after `k ≤ N` consecutive calls less than a second apart, from a
state without the two keys: the counter holds `k` and expires one second after the last
call; nothing else has changed. -/
theorem redis_stateAfter_le (config : Config) (clock : Nat → Time) (s0 : RedisState)
    (i c : String) (N B : Int) (hc : limitParams config c = some (N, B))
    (hck : s0.data (counterKey c i) = none) (hbk : s0.data (blockKey c i) = none)
    (hclock : ∀ j : Nat, 1 ≤ j → clock j ≤ clock (j + 1) ∧ clock (j + 1) < clock j + Second)
    (k : Nat) (hk : (k : Int) ≤ N) :
    timedStateAfter config clock s0 i c k
      = if k = 0 then s0
        else (s0.at (clock k)).put (counterKey c i) (k, some (clock k + Second)) := by
  have hr := (limitParams_some config c N B hc).2.1
  have hne : blockKey c i ≠ counterKey c i := fun h => counterKey_ne_blockKey c i c i h.symm
  induction k with
  | zero => simp [timedStateAfter]
  | succ k ih =>
    have ih2 := ih (by omega)
    rw [if_neg (Nat.succ_ne_zero k), timedStateAfter, ih2]
    have hb : ((if k = 0 then s0
        else (s0.at (clock k)).put (counterKey c i) (k, some (clock k + Second))).at
          (clock (k + 1))).data (blockKey c i) = none := by
      split_ifs
      · exact hbk
      · simp [RedisState.at, RedisState.put, hne, hbk]
    have hcur : ((((if k = 0 then s0
        else (s0.at (clock k)).put (counterKey c i) (k, some (clock k + Second))).at
          (clock (k + 1))).live (counterKey c i)).map Prod.fst).getD 0 = (k : Int) := by
      split_ifs with h0
      · simp [RedisState.live, RedisState.at, hck, h0]
      · simp [RedisState.live, RedisState.at, RedisState.put, (hclock k (by omega)).2]
    rw [CheckLimit_redis config _ _ i c N B k hc hb hcur (by omega)]
    rw [if_neg (by push_cast at hk; omega)]
    simp only
    by_cases h0 : k = 0
    · simp [h0, RedisState.at, RedisState.put]
    · rw [if_neg h0]
      simp only [RedisState.at, RedisState.put]
      congr 1
      · funext x
        by_cases hx : x = counterKey c i <;> simp [hx]
    
/-- The seen counter in the state reached after `k ≤ N` calls, at the time of the next
call, and the absence of the block key there. -/
theorem redis_view_after (config : Config) (clock : Nat → Time) (s0 : RedisState)
    (i c : String) (N B : Int) (hc : limitParams config c = some (N, B))
    (hck : s0.data (counterKey c i) = none) (hbk : s0.data (blockKey c i) = none)
    (hclock : ∀ j : Nat, 1 ≤ j → clock j ≤ clock (j + 1) ∧ clock (j + 1) < clock j + Second)
    (k : Nat) (hk : (k : Int) ≤ N) :
    ((timedStateAfter config clock s0 i c k).at (clock (k + 1))).data (blockKey c i) = none
      ∧ (((((timedStateAfter config clock s0 i c k).at (clock (k + 1))).live
          (counterKey c i)).map Prod.fst).getD 0 = (k : Int))
      ∧ ((timedStateAfter config clock s0 i c k).at (clock (k + 1))).put (counterKey c i)
          ((k : Int) + 1, some (clock (k + 1) + Second))
        = (s0.at (clock (k + 1))).put (counterKey c i)
            ((k : Int) + 1, some (clock (k + 1) + Second)) := by
  have hne : blockKey c i ≠ counterKey c i := fun h => counterKey_ne_blockKey c i c i h.symm
  rw [redis_stateAfter_le config clock s0 i c N B hc hck hbk hclock k hk]
  by_cases h0 : k = 0
  · simp [h0, RedisState.live, RedisState.at, hck, hbk]
  · rw [if_neg h0]
    refine ⟨by simp [RedisState.at, RedisState.put, hne, hbk],
      by simp [RedisState.live, RedisState.at, RedisState.put, (hclock k (by omega)).2], ?_⟩
    simp only [RedisState.at, RedisState.put]
    congr 1
    funext x
    by_cases hx : x = counterKey c i <;> simp [hx]

/-- The `k`-th of the consecutive calls on the Redis store, `1 ≤ k ≤ N`, less than a
second apart. -/
theorem redis_callNo_le (config : Config) (clock : Nat → Time) (s0 : RedisState)
    (i c : String) (N B : Int) (hc : limitParams config c = some (N, B))
    (hck : s0.data (counterKey c i) = none) (hbk : s0.data (blockKey c i) = none)
    (hclock : ∀ j : Nat, 1 ≤ j → clock j ≤ clock (j + 1) ∧ clock (j + 1) < clock j + Second)
    (k : Nat) (hk1 : 1 ≤ k) (hk : (k : Int) ≤ N) :
    timedCallNo config clock s0 i c k
      = (.ok { Allowed := true, Limit := N, Remaining := N - k,
               ResetTime := Time.Add (clock k) Second },
          (s0.at (clock k)).put (counterKey c i) (k, some (clock k + Second))) := by
  obtain ⟨j, rfl⟩ : ∃ j, k = j + 1 := ⟨k - 1, by omega⟩
  have hr := (limitParams_some config c N B hc).2.1
  obtain ⟨hb, hcur, hput⟩ := redis_view_after config clock s0 i c N B hc hck hbk hclock j
    (by push_cast at hk; omega)
  unfold timedCallNo
  rw [Nat.add_sub_cancel, CheckLimit_redis config _ _ i c N B j hc hb hcur (by omega)]
  rw [if_neg (by push_cast at hk; omega)]
  have hw : wrap64 (N - ((j : Int) + 1)) = N - ((j + 1 : Nat) : Int) := by
    rw [wrap64_of_range _ (by push_cast at hk; omega) (by omega)]
    push_cast; rfl
  rw [hw]
  have hnow : ((timedStateAfter config clock s0 i c j).at (clock (j + 1))).now
      = clock (j + 1) := rfl
  rw [hnow, hput]
  push_cast
  rfl

/-- The `(N+1)`-th of the consecutive calls on the Redis store, less than a second apart,
when `N + 1` is representable: a denial that leaves the counter at `N + 1` and writes the
block key. -/
theorem redis_callNo_succ (config : Config) (clock : Nat → Time) (s0 : RedisState)
    (i c : String) (N B : Int) (hc : limitParams config c = some (N, B)) (hN : 0 < N)
    (hN2 : N < 9223372036854775807)
    (hck : s0.data (counterKey c i) = none) (hbk : s0.data (blockKey c i) = none)
    (hclock : ∀ j : Nat, 1 ≤ j → clock j ≤ clock (j + 1) ∧ clock (j + 1) < clock j + Second)
    (k : Nat) (hk : (k : Int) = N + 1) :
    ∃ s1 : RedisState,
      timedCallNo config clock s0 i c k
          = (.ok { Allowed := false, Limit := N, Remaining := 0,
                   ResetTime := Time.Add (clock k) (blockDurationOf B) }, s1)
        ∧ s1.data (counterKey c i) = some (N + 1, some (clock k + Second))
        ∧ ∃ expiry : Option Time, s1.data (blockKey c i) = some (1, expiry) := by
  obtain ⟨j, rfl⟩ : ∃ j, k = j + 1 := ⟨k - 1, by omega⟩
  have hjN : (j : Int) = N := by push_cast at hk; omega
  have hne : blockKey c i ≠ counterKey c i := fun h => counterKey_ne_blockKey c i c i h.symm
  obtain ⟨hb, hcur, _⟩ := redis_view_after config clock s0 i c N B hc hck hbk hclock j
    (by omega)
  unfold timedCallNo
  rw [Nat.add_sub_cancel, CheckLimit_redis config _ _ i c N B j hc hb hcur (by omega)]
  rw [if_pos (by omega)]
  have hnow : ((timedStateAfter config clock s0 i c j).at (clock (j + 1))).now
      = clock (j + 1) := rfl
  refine ⟨_, rfl, ?_, ?_⟩
  · simp [RedisState.put, hne.symm, hnow, hjN]
  · exact ⟨_, if_pos rfl⟩

/-- With the largest `int64` as limit, call number 2^63 on the Redis store fails: the
counter cannot be incremented. -/
theorem redis_callNo_overflow (config : Config) (clock : Nat → Time) (s0 : RedisState)
    (i c : String) (B : Int) (hc : limitParams config c = some (9223372036854775807, B))
    (hck : s0.data (counterKey c i) = none) (hbk : s0.data (blockKey c i) = none)
    (hclock : ∀ j : Nat, 1 ≤ j → clock j ≤ clock (j + 1) ∧ clock (j + 1) < clock j + Second) :
    (timedCallNo config clock s0 i c 9223372036854775808).1
      = .error (.wrapped "error incrementing counter" redisOverflow) := by
  obtain ⟨hb, hcur, _⟩ := redis_view_after config clock s0 i c _ B hc hck hbk hclock
    9223372036854775807 (by norm_num)
  have hsub : (9223372036854775808 : Nat) - 1 = 9223372036854775807 := by norm_num
  have hadd : (9223372036854775807 : Nat) + 1 = 9223372036854775808 := by norm_num
  rw [hadd] at hb hcur
  unfold timedCallNo
  rw [hsub]
  exact CheckLimit_redis_overflow config _ _ i c _ B hc hb (by rw [hcur]; norm_num)

/-- A whole number of seconds is sent to Redis as it is. -/
theorem formatSec_whole (n : Int) : formatSec (n * Second) = n := by
  unfold formatSec Second
  split_ifs with h
  · have h2 : (0 : Int) < n * 1000000000 ∧ n * 1000000000 < (1000000000 : Int) := h
    omega
  · exact Int.mul_tdiv_cancel n (by decide)

/-- After `INCR` the key is live, whether the command succeeded or not, and the time of
the server is unchanged. -/
theorem redisINCR_live (s : RedisState) (key : String) :
    ∃ (value : Int) (expiry : Option Time),
      (redisINCR s key).2.live key = some (value, expiry)
        ∧ (redisINCR s key).2.now = s.now := by
  unfold redisINCR
  cases hl : s.live key with
  | none => exact ⟨1, none, RedisState.live_put_persistent s key 1, rfl⟩
  | some entry =>
    obtain ⟨value, expiry⟩ := entry
    simp only
    by_cases hmax : value = 9223372036854775807
    · rw [if_pos hmax]; exact ⟨value, expiry, hl, rfl⟩
    · rw [if_neg hmax]
      exact ⟨value + 1, expiry, RedisState.live_put_entry s key value (value + 1) expiry hl,
        rfl⟩

/-- After every `Increment` on the Redis store, whatever the key held before and whether
or not the increment succeeded, the key is live exactly until `formatSec expiration`
seconds after the call. -/
theorem RedisStorage_Increment_lifetime (s : RedisState) (key : String)
    (expiration : Duration) (t : Time) (ht : s.now ≤ t) :
    ((((RedisStorage.Increment s key expiration).2.at t).live key).isSome = true
      ↔ t < s.now + formatSec expiration * Second) := by
  obtain ⟨value, expiry, hlive, hnow⟩ := redisINCR_live s key
  simp only [RedisStorage]
  unfold redisEXPIRE
  rw [hlive]
  simp only
  by_cases hsec : formatSec expiration ≤ 0
  · rw [if_pos hsec]
    constructor
    · intro h
      simp [RedisState.live, RedisState.at, RedisState.remove] at h
    · intro h
      have harith : ∀ a b d : Int, a ≤ b → b < a + d * 1000000000 → d ≤ 0 → False := by
        intro a b d h1 h2 h3; omega
      exact (harith s.now t (formatSec expiration) ht h hsec).elim
  · rw [if_neg hsec, hnow]
    simp [RedisState.live, RedisState.at, RedisState.put, Time.Add]

/-- With the largest `int64` as limit no store can make `CheckLimit` deny an identity that
is not blocked: whatever 64-bit count `Increment` returns, the call is allowed. -/
theorem max_limit_never_denies {σ ε : Type} (storage : StorageStrategy σ ε) (config : Config)
    (now : Time) (s s1 s2 : σ) (i c : String) (B currentCount : Int)
    (hc : limitParams config c = some (9223372036854775807, B))
    (hex : storage.Exists s (blockKey c i) = (.ok false, s1))
    (hin : storage.Increment s1 (counterKey c i) Second = (.ok currentCount, s2))
    (hrange : currentCount ≤ 9223372036854775807) :
    ∃ r : LimitResult, (CheckLimit storage config now s i c).1 = .ok r ∧ r.Allowed = true := by
  unfold CheckLimit
  rw [hc]
  simp only [hex, hin]
  rw [if_neg (by omega)]
  exact ⟨_, rfl, rfl⟩

/-- C15 (as amended): `RedisStorage.Increment` applies the expiry to the key on every
call, whether or not the key existed before the call (and whether or not the increment
succeeded): from the call on, the key is live exactly until `formatSec expiration` seconds
after the call, which is the full duration when the expiration is a whole number of
seconds, as the one-second window of `CheckLimit` is. Hence, on the Redis store with
time, for a recognised class with limit `0 < N < 2^63 - 1` and consecutive `CheckLimit`
calls for one identity that are less than a second apart (call `j + 1` at a time
`clock (j + 1)` with `clock j ≤ clock (j + 1) < clock j + 1 s`), starting without the two
keys, the counter never resets: the `k`-th call, `1 ≤ k ≤ N`, is allowed with
`Remaining = N - k` and leaves the counter at `k`, and the `(N+1)`-th call is denied,
leaves the counter at `N + 1` and writes the block key with value 1, however far the
calls are spread in time. -/
theorem redis_counter_never_resets (config : Config) (clock : Nat → Time) (s0 : RedisState)
    (i c : String) (N B : Int) (hc : limitParams config c = some (N, B)) (hN : 0 < N)
    (hN2 : N < 9223372036854775807)
    (hck : s0.data (counterKey c i) = none) (hbk : s0.data (blockKey c i) = none)
    (hclock : ∀ j : Nat, 1 ≤ j → clock j ≤ clock (j + 1) ∧ clock (j + 1) < clock j + Second) :
    (∀ (s : RedisState) (key : String) (expiration : Duration) (t : Time), s.now ≤ t →
        ((((RedisStorage.Increment s key expiration).2.at t).live key).isSome = true
          ↔ t < s.now + formatSec expiration * Second))
      ∧ (∀ n : Int, formatSec (n * Second) = n)
      ∧ (∀ k : Nat, 1 ≤ k → (k : Int) ≤ N →
          timedCallNo config clock s0 i c k
            = (.ok { Allowed := true, Limit := N, Remaining := N - k,
                     ResetTime := Time.Add (clock k) Second },
                (s0.at (clock k)).put (counterKey c i) (k, some (clock k + Second))))
      ∧ (∀ k : Nat, (k : Int) = N + 1 →
          ∃ s1 : RedisState,
            timedCallNo config clock s0 i c k
                = (.ok { Allowed := false, Limit := N, Remaining := 0,
                         ResetTime := Time.Add (clock k) (blockDurationOf B) }, s1)
              ∧ s1.data (counterKey c i) = some (N + 1, some (clock k + Second))
              ∧ ∃ expiry : Option Time, s1.data (blockKey c i) = some (1, expiry)) := by
  refine ⟨?_, formatSec_whole, ?_, ?_⟩
  · intro s key expiration t ht
    exact RedisStorage_Increment_lifetime s key expiration t ht
  · intro k hk1 hk
    exact redis_callNo_le config clock s0 i c N B hc hck hbk hclock k hk1 hk
  · intro k hk
    exact redis_callNo_succ config clock s0 i c N B hc hN hN2 hck hbk hclock k hk

/-- Six calls for one IP, 0.9 s apart, under the configuration of the tests (5 requests
per second): over 4.5 s the rate is well below the limit, and the sixth call is denied. -/
theorem redis_counter_never_resets_witness :
    (limitParams testConfig "ip" = some (5, 60) ∧ (0 : Int) < 5
      ∧ (5 : Int) < 9223372036854775807
      ∧ emptyRedis.data (counterKey "ip" "1.2.3.4") = none
      ∧ emptyRedis.data (blockKey "ip" "1.2.3.4") = none
      ∧ (∀ j : Nat, 1 ≤ j → ((j : Int) * 900000000 ≤ ((j + 1 : Nat) : Int) * 900000000)
          ∧ ((j + 1 : Nat) : Int) * 900000000 < (j : Int) * 900000000 + Second)) ∧
    ∃ s1 : RedisState,
      timedCallNo testConfig (fun k => (k : Int) * 900000000) emptyRedis "1.2.3.4" "ip" 6
          = (.ok { Allowed := false, Limit := 5, Remaining := 0,
                   ResetTime := Time.Add (((6 : Nat) : Int) * 900000000) (blockDurationOf 60) },
              s1)
        ∧ s1.data (counterKey "ip" "1.2.3.4")
            = some (5 + 1, some (((6 : Nat) : Int) * 900000000 + Second))
        ∧ ∃ expiry : Option Time, s1.data (blockKey "ip" "1.2.3.4") = some (1, expiry) :=
  ⟨⟨by decide, by decide, by decide, rfl, rfl,
      fun j _ => ⟨by push_cast; omega, by unfold Second; push_cast; omega⟩⟩,
    (redis_counter_never_resets testConfig (fun k => (k : Int) * 900000000) emptyRedis
      "1.2.3.4" "ip" 5 60 (by decide) (by decide) (by decide) rfl rfl
      (fun j _ =>
        ⟨by
          show (j : Int) * 900000000 ≤ ((j + 1 : Nat) : Int) * 900000000
          push_cast; omega,
        by
          show ((j + 1 : Nat) : Int) * 900000000 < (j : Int) * 900000000 + 1000000000
          push_cast; omega⟩)).2.2.2 6
      (by decide)⟩

/-- C15 as stated fails in two places. An expiration of 1.5 s is not applied in full: the
key expires 1 s after the call and is gone 1.2 s after it. And for the limit 2^63 - 1 the
call number 2^63, with calls less than a second apart (here all at time 0), is not
denied: on the Redis store it fails, because the counter cannot be incremented beyond the
largest 64-bit integer, and on every store whatever 64-bit count `Increment` returns is
not greater than the limit, so that an identity that is not blocked is allowed. -/
theorem redis_expiry_truncated_and_max_limit :
    ((RedisStorage.Increment emptyRedis "rate_limit:ip:1.2.3.4" 1500000000).1 = .ok 1
      ∧ (RedisStorage.Increment emptyRedis "rate_limit:ip:1.2.3.4" 1500000000).2.data
          "rate_limit:ip:1.2.3.4" = some (1, some 1000000000)
      ∧ (((RedisStorage.Increment emptyRedis "rate_limit:ip:1.2.3.4" 1500000000).2.at
          1200000000).live "rate_limit:ip:1.2.3.4") = none
      ∧ (1200000000 : Int) < 0 + 1500000000)
    ∧ (limitParams maxLimitConfig "ip" = some (9223372036854775807, 60)
      ∧ emptyRedis.data (counterKey "ip" "1.2.3.4") = none
      ∧ emptyRedis.data (blockKey "ip" "1.2.3.4") = none
      ∧ (∀ j : Nat, 1 ≤ j → (0 : Int) ≤ 0 ∧ (0 : Int) < 0 + Second)
      ∧ (timedCallNo maxLimitConfig (fun _ => 0) emptyRedis "1.2.3.4" "ip"
          9223372036854775808).1
        = .error (.wrapped "error incrementing counter"
            "ERR increment or decrement would overflow")
      ∧ (∀ (σ : Type) (storage : StorageStrategy σ String) (now : Time) (s s1 s2 : σ)
          (currentCount : Int),
          storage.Exists s (blockKey "ip" "1.2.3.4") = (.ok false, s1) →
          storage.Increment s1 (counterKey "ip" "1.2.3.4") Second = (.ok currentCount, s2) →
          currentCount ≤ 9223372036854775807 →
          ∃ r : LimitResult,
            (CheckLimit storage maxLimitConfig now s "1.2.3.4" "ip").1 = .ok r
              ∧ r.Allowed = true)) :=
  ⟨⟨by decide, by decide, by decide, by decide⟩,
    by decide, rfl, rfl, fun _ _ => by decide,
    redis_callNo_overflow maxLimitConfig (fun _ => 0) emptyRedis "1.2.3.4" "ip" 60
      (by decide) rfl rfl
      (fun _ _ => ⟨le_refl _, by show (0 : Int) < 0 + 1000000000; decide⟩),
    fun σ storage now s s1 s2 currentCount hex hin hrange =>
      max_limit_never_denies storage maxLimitConfig now s s1 s2 "1.2.3.4" "ip" 60
        currentCount (by decide) hex hin hrange⟩

/-- Calls exactly one second apart, for comparison: the counter has expired at each call,
so the sixth call is the first of a new window. -/
theorem redis_one_second_apart_example :
    (timedCallNo testConfig (fun k => (k : Int) * 1000000000) emptyRedis "1.2.3.4" "ip" 6).1
        = .ok { Allowed := true, Limit := 5, Remaining := 4, ResetTime := 7000000000 }
      ∧ (timedCallNo testConfig (fun k => (k : Int) * 900000000) emptyRedis "1.2.3.4" "ip" 6).1
        = .ok { Allowed := false, Limit := 5, Remaining := 0, ResetTime := 65400000000 } := by
  decide

end RateLimiter
